import Mathlib

/-!
Verification development for the hamister backend (src/eu.js, src/eu_fixed.js).

The ledger core of the program is shallowly embedded below.  JavaScript numbers
are modelled as Int (all monetary values in the program are integers of KZ and
the referral percentages 25, 2, 1 over 100 make every product exact, so
Math.floor(x * pct) coincides with integer floor division by 100); timestamps
are modelled as Int milliseconds since the epoch (the deployment timezone
Africa/Luanda has no DST, so Date.setHours(getHours() + 24) adds exactly
86400000 ms).  A missing (undefined/null) numeric field and the number 0 are
both falsy in JavaScript, so the idiom x || d is modelled by jsOr with 0
standing for a missing value.  Free-text description fields of SystemLog rows
are elided; Transaction descriptions are kept as plain strings without the
numeric interpolations.  The Prisma store is a record of lists; findUnique is
List.find? on the id, update is a pointwise map on the matching id, create is
an append at the end.
-/

/-- A user row (the fields the ledger core reads): id, saldo (balance),
optional inviter reference.  src/eu.js registration, line 4229. -/
structure User where
  id : Nat
  saldo : Int
  inviter_id : Option Nat
  deriving DecidableEq

/-- A purchase row, src/eu.js line 5228. -/
structure Purchase where
  id : Nat
  user_id : Nat
  product_id : Nat
  product_name : String
  amount : Int
  quantity : Int
  daily_return : Int
  cycle_days : Int
  purchase_date : Int
  next_payout : Int
  expiry_date : Int
  status : String
  total_earned : Int
  payout_count : Int
  last_payout : Option Int
  completed_at : Option Int
  deriving DecidableEq

/-- A transaction (ledger) row, e.g. src/eu.js line 243. -/
structure Txn where
  user_id : Nat
  type : String
  amount : Int
  description : String
  balance_after : Int
  deriving DecidableEq

/-- A referral closure-table edge, src/eu.js line 4279. -/
structure ReferralLevel where
  referrer_id : Nat
  user_id : Nat
  level : Nat
  deriving DecidableEq

/-- A referral bonus audit row, src/eu.js line 5444. -/
structure ReferralBonus where
  referrer_id : Nat
  referred_user_id : Nat
  level : Nat
  purchase_amount : Int
  bonus_amount : Int
  bonus_percentage : Int
  deriving DecidableEq

/-- A deposit row (the fields deposit approval reads), src/eu.js line 1667. -/
structure Deposit where
  id : Nat
  user_id : Nat
  amount : Int
  status : String
  deriving DecidableEq

/-- A withdrawal row (the fields rejection reads), src/eu.js line 1914. -/
structure Withdrawal where
  id : Nat
  user_id : Nat
  amount : Int
  status : String
  deriving DecidableEq

/-- A system log row; the free-text description is elided. -/
structure SystemLog where
  action : String
  user_id : Option Nat
  deriving DecidableEq

/-- The persistent store. -/
structure State where
  users : List User
  purchases : List Purchase
  transactions : List Txn
  referralLevels : List ReferralLevel
  referralBonuses : List ReferralBonus
  deposits : List Deposit
  withdrawals : List Withdrawal
  logs : List SystemLog
  deriving DecidableEq

/-- An HTTP-style handler response: status code, success flag, message. -/
structure Resp where
  status : Nat
  success : Bool
  message : String
  deriving DecidableEq

def msPerHour : Int := 3600000

def msPerDay : Int := 86400000

/-- The JavaScript idiom x || d on numbers: 0 (or a missing value, modelled
as 0) is falsy and selects the default. -/
def jsOr (x d : Int) : Int := if x = 0 then d else x

def findUser (s : State) (uid : Nat) : Option User :=
  s.users.find? (fun u => u.id == uid)

def saldoOf (s : State) (uid : Nat) : Option Int :=
  (findUser s uid).map (fun u => u.saldo)

/-- prisma.user.update with a saldo increment or overwrite: every row whose id
matches is rewritten pointwise. -/
def updateUserSaldo (s : State) (uid : Nat) (f : Int → Int) : State :=
  { s with users := s.users.map (fun u => if u.id == uid then { u with saldo := f u.saldo } else u) }

def updatePurchaseById (s : State) (pid : Nat) (f : Purchase → Purchase) : State :=
  { s with purchases := s.purchases.map (fun q => if q.id == pid then f q else q) }

def updateDepositById (s : State) (did : Nat) (f : Deposit → Deposit) : State :=
  { s with deposits := s.deposits.map (fun d => if d.id == did then f d else d) }

def updateWithdrawalById (s : State) (wid : Nat) (f : Withdrawal → Withdrawal) : State :=
  { s with withdrawals := s.withdrawals.map (fun w => if w.id == wid then f w else w) }

def appendTxn (s : State) (t : Txn) : State :=
  { s with transactions := s.transactions ++ [t] }

def appendLog (s : State) (l : SystemLog) : State :=
  { s with logs := s.logs ++ [l] }

def appendReferralLevel (s : State) (r : ReferralLevel) : State :=
  { s with referralLevels := s.referralLevels ++ [r] }

def appendReferralBonus (s : State) (b : ReferralBonus) : State :=
  { s with referralBonuses := s.referralBonuses ++ [b] }

def findDeposit (s : State) (did : Nat) : Option Deposit :=
  s.deposits.find? (fun d => d.id == did)

def findWithdrawal (s : State) (wid : Nat) : Option Withdrawal :=
  s.withdrawals.find? (fun w => w.id == wid)

/-- The due-purchase window of both payout endpoints, src/eu.js lines 133-152
and 5734-5753: status active, next_payout has passed, not expired. -/
def isDue (now : Int) (p : Purchase) : Bool :=
  p.status == "active" && decide (p.next_payout ≤ now) && decide (p.expiry_date > now)

def duePurchases (now : Int) (s : State) : List Purchase :=
  s.purchases.filter (isDue now)

/-- Math.floor((now - purchase_date) / (1000*60*60*24)), src/eu.js line 184. -/
def daysPassed (now : Int) (p : Purchase) : Int :=
  (now - p.purchase_date).fdiv msPerDay

/-- The per-purchase body of POST /api/process-daily-payouts, src/eu.js lines
175-263.  The completion branch updates only the purchase row; the credit
branch is one prisma.$transaction: increment the owner saldo, advance the
purchase (next_payout is the PRIOR next_payout plus 24 hours, line 180-181),
append a daily_payout_auto Transaction whose balance_after is the updated
saldo, and append a SystemLog row.  A missing owner makes user.update throw,
the store transaction roll back and the per-purchase catch continue, so the
state is unchanged. -/
def processDuePurchase (now : Int) (s : State) (p : Purchase) : State :=
  let nextPayout := p.next_payout + 24 * msPerHour
  let remainingDays := jsOr p.cycle_days 30 - daysPassed now p
  if remainingDays ≤ 0 then
    updatePurchaseById s p.id (fun q => { q with status := "completed", completed_at := some now })
  else
    let dailyReturn := jsOr p.daily_return 13
    match findUser s p.user_id with
    | none => s
    | some u =>
      let s1 := updateUserSaldo s p.user_id (fun b => b + dailyReturn)
      let s2 := updatePurchaseById s1 p.id (fun q =>
        { q with next_payout := nextPayout,
                 total_earned := q.total_earned + dailyReturn,
                 payout_count := q.payout_count + 1,
                 last_payout := some now })
      let s3 := appendTxn s2
        { user_id := p.user_id, type := "daily_payout_auto", amount := dailyReturn,
          description := "Rendimento automático: " ++ p.product_name,
          balance_after := u.saldo + dailyReturn }
      appendLog s3 { action := "AUTO_DAILY_PAYOUT", user_id := some p.user_id }

/-- POST /api/process-daily-payouts, src/eu.js lines 127-311: select the due
purchases once, process each in turn, then write one summary SystemLog (the
empty due set returns early without the summary log, line 156). -/
def processDailyPayouts (now : Int) (s : State) : State :=
  let due := duePurchases now s
  if due.isEmpty then s
  else
    let s1 := due.foldl (processDuePurchase now) s
    appendLog s1 { action := "AUTO_PAYOUTS_COMPLETED", user_id := none }

/-- The per-purchase body of POST /api/process-payouts, src/eu.js lines
5761-5854.  Unlike processDuePurchase it sets next_payout to now plus 24 hours
(lines 5764-5765) and records the Transaction with type payout (line 5837). -/
def processPayoutsStep (now : Int) (s : State) (p : Purchase) : State :=
  let nextPayout := now + 24 * msPerHour
  let remainingDays := jsOr p.cycle_days 30 - daysPassed now p
  if remainingDays ≤ 0 then
    updatePurchaseById s p.id (fun q => { q with status := "completed", completed_at := some now })
  else
    let dailyReturn := jsOr p.daily_return 13
    match findUser s p.user_id with
    | none => s
    | some u =>
      let s1 := updateUserSaldo s p.user_id (fun b => b + dailyReturn)
      let s2 := updatePurchaseById s1 p.id (fun q =>
        { q with next_payout := nextPayout,
                 total_earned := q.total_earned + dailyReturn,
                 payout_count := q.payout_count + 1,
                 last_payout := some now })
      let s3 := appendTxn s2
        { user_id := p.user_id, type := "payout", amount := dailyReturn,
          description := "Rendimento diário: " ++ p.product_name,
          balance_after := u.saldo + dailyReturn }
      appendLog s3 { action := "DAILY_PAYOUT", user_id := some p.user_id }

/-- POST /api/process-payouts, src/eu.js lines 5728-5896 (no summary log). -/
def processPayouts (now : Int) (s : State) : State :=
  (duePurchases now s).foldl (processPayoutsStep now) s

/-- The hardcoded commission table of distributeReferralBonuses, src/eu.js
lines 5385-5389, as percentage points: level 1 is 25 percent, level 2 is 2,
level 3 is 1, any other level has no entry. -/
def bonusPercent (level : Nat) : Option Int :=
  if level = 1 then some 25 else if level = 2 then some 2 else if level = 3 then some 1 else none

/-- One iteration of the sponsor loop of distributeReferralBonuses, src/eu.js
lines 5392-5484.  Math.floor(purchaseAmount * percentage) is exact integer
floor division by 100 for the table entries.  A level without a table entry is
skipped, a missing sponsor row is skipped (the inner catch), a bonus of zero
or less performs no mutation at all; otherwise the sponsor saldo is
incremented and a referral_bonus Transaction (balance_after the updated saldo)
and a ReferralBonus audit row are appended.  The calls are issued on the plain
prisma handle (the endpoint passes prisma as tx, line 5287), not inside a
store transaction. -/
def distributeBonusLevel (purchaserId : Nat) (purchaseAmount : Int) (s : State)
    (row : ReferralLevel) : State :=
  match bonusPercent row.level with
  | none => s
  | some pct =>
    match findUser s row.referrer_id with
    | none => s
    | some u =>
      let bonusAmount := (purchaseAmount * pct).fdiv 100
      if bonusAmount > 0 then
        let s1 := updateUserSaldo s row.referrer_id (fun b => b + bonusAmount)
        let s2 := appendTxn s1
          { user_id := row.referrer_id, type := "referral_bonus", amount := bonusAmount,
            description := "Bônus de indicação", balance_after := u.saldo + bonusAmount }
        appendReferralBonus s2
          { referrer_id := row.referrer_id, referred_user_id := purchaserId,
            level := row.level, purchase_amount := purchaseAmount,
            bonus_amount := bonusAmount, bonus_percentage := pct }
      else s

def insertByLevel (r : ReferralLevel) : List ReferralLevel → List ReferralLevel
  | [] => [r]
  | x :: xs => if r.level < x.level then r :: x :: xs else x :: insertByLevel r xs

/-- Stable sort by level, modelling the orderBy level asc of the
referralLevel.findMany at src/eu.js line 5374. -/
def sortByLevel : List ReferralLevel → List ReferralLevel
  | [] => []
  | x :: xs => insertByLevel x (sortByLevel xs)

/-- The ReferralLevel rows keyed by the purchaser, src/eu.js lines 5360-5375. -/
def referrerRows (s : State) (purchaserId : Nat) : List ReferralLevel :=
  sortByLevel (s.referralLevels.filter (fun r => r.user_id == purchaserId))

/-- distributeReferralBonuses, src/eu.js lines 5345-5494 (the returned totals
record is not modelled; only the store effects are). -/
def distributeReferralBonuses (s : State) (purchaserId : Nat) (purchaseAmount : Int) : State :=
  (referrerRows s purchaserId).foldl (distributeBonusLevel purchaserId purchaseAmount) s

/-- createReferralNetwork, src/eu.js lines 4276-4321: a level-1 row for the
direct inviter, then a level-2 row if the inviter has an inviter, then a
level-3 row if that one has an inviter in turn; never more. -/
def createReferralNetwork (s : State) (inviterId newUserId : Nat) : State :=
  let s1 := appendReferralLevel s { referrer_id := inviterId, user_id := newUserId, level := 1 }
  match findUser s1 inviterId with
  | none => s1
  | some level2Inviter =>
    match level2Inviter.inviter_id with
    | none => s1
    | some l2 =>
      let s2 := appendReferralLevel s1 { referrer_id := l2, user_id := newUserId, level := 2 }
      match findUser s2 l2 with
      | none => s2
      | some level3Inviter =>
        match level3Inviter.inviter_id with
        | none => s2
        | some l3 =>
          appendReferralLevel s2 { referrer_id := l3, user_id := newUserId, level := 3 }

/-- POST /api/admin2/users/:id/add-balance, src/eu.js lines 2102-2191: one
prisma.$transaction incrementing the saldo and appending an admin_addition
Transaction with balance_after the updated saldo, plus a SystemLog. -/
def addBalance (s : State) (uid : Nat) (amount : Int) : Resp × State :=
  if amount ≤ 0 then ({ status := 400, success := false, message := "Valor deve ser maior que zero" }, s)
  else
    match findUser s uid with
    | none => ({ status := 404, success := false, message := "Usuário não encontrado" }, s)
    | some u =>
      let s1 := updateUserSaldo s uid (fun b => b + amount)
      let s2 := appendTxn s1
        { user_id := uid, type := "admin_addition", amount := amount,
          description := "Adição de saldo pelo administrador", balance_after := u.saldo + amount }
      let s3 := appendLog s2 { action := "ADMIN_BALANCE_ADD", user_id := some uid }
      ({ status := 200, success := true, message := "Saldo adicionado com sucesso" }, s3)

/-- POST /api/admin2/users/:id/deduct-balance, src/eu.js lines 2921-3018: the
sufficiency pre-check at lines 2946-2952 rejects before any mutation;
otherwise one prisma.$transaction decrements the saldo and appends an
admin_deduction Transaction of negative amount with balance_after the updated
saldo, plus a SystemLog. -/
def deductBalance (s : State) (uid : Nat) (amount : Int) : Resp × State :=
  if amount ≤ 0 then ({ status := 400, success := false, message := "Valor deve ser maior que zero" }, s)
  else
    match findUser s uid with
    | none => ({ status := 404, success := false, message := "Usuário não encontrado" }, s)
    | some u =>
      if u.saldo < amount then
        ({ status := 400, success := false, message := "Saldo insuficiente" }, s)
      else
        let s1 := updateUserSaldo s uid (fun b => b - amount)
        let s2 := appendTxn s1
          { user_id := uid, type := "admin_deduction", amount := -amount,
            description := "Dedução de saldo pelo administrador", balance_after := u.saldo - amount }
        let s3 := appendLog s2 { action := "ADMIN_BALANCE_DEDUCT", user_id := some uid }
        ({ status := 200, success := true, message := "Saldo deduzido com sucesso" }, s3)

/-- POST /api/admin2/users/:id/set-balance, src/eu.js lines 3021-3105: the new
saldo overwrites the old, the Transaction amount is the signed difference with
type admin_addition when the difference is non-negative and admin_deduction
otherwise, and balance_after is the new saldo. -/
def setBalance (s : State) (uid : Nat) (new_balance : Int) : Resp × State :=
  if new_balance < 0 then
    ({ status := 400, success := false, message := "Novo saldo deve ser um número não negativo" }, s)
  else
    match findUser s uid with
    | none => ({ status := 404, success := false, message := "Usuário não encontrado" }, s)
    | some u =>
      let difference := new_balance - u.saldo
      let transactionType := if difference ≥ 0 then "admin_addition" else "admin_deduction"
      let s1 := updateUserSaldo s uid (fun _ => new_balance)
      let s2 := appendTxn s1
        { user_id := uid, type := transactionType, amount := difference,
          description := "Ajuste de saldo pelo administrador", balance_after := new_balance }
      let s3 := appendLog s2 { action := "ADMIN_SET_BALANCE", user_id := some uid }
      ({ status := 200, success := true, message := "Saldo definido com sucesso" }, s3)

/-- One operation item of a bulk-balance request, src/eu.js line 3125. -/
structure BulkOp where
  user_id : Nat
  action : String
  amount : Int
  deriving DecidableEq

/-- One iteration of the bulk-balance loop, src/eu.js lines 3123-3288, in the
failure-free execution.  NOTE the saldo update and the transaction.create are
two separate prisma calls with no surrounding store transaction (lines
3150-3222); the second component of the result records whether the item
succeeded (true) or was pushed onto the errors list (false). -/
def bulkStep (s : State) (op : BulkOp) : State × Bool :=
  if op.amount ≤ 0 then (s, false)
  else
    match findUser s op.user_id with
    | none => (s, false)
    | some u =>
      if op.action == "add" then
        let s1 := updateUserSaldo s op.user_id (fun b => b + op.amount)
        let s2 := appendTxn s1
          { user_id := op.user_id, type := "admin_addition", amount := op.amount,
            description := "Adição em massa pelo administrador", balance_after := u.saldo + op.amount }
        (s2, true)
      else if op.action == "deduct" then
        if u.saldo < op.amount then (s, false)
        else
          let s1 := updateUserSaldo s op.user_id (fun b => b - op.amount)
          let s2 := appendTxn s1
            { user_id := op.user_id, type := "admin_deduction", amount := -op.amount,
              description := "Dedução em massa pelo administrador", balance_after := u.saldo - op.amount }
          (s2, true)
      else if op.action == "set" then
        let difference := op.amount - u.saldo
        let transactionType := if difference ≥ 0 then "admin_addition" else "admin_deduction"
        let s1 := updateUserSaldo s op.user_id (fun _ => op.amount)
        let s2 := appendTxn s1
          { user_id := op.user_id, type := transactionType, amount := difference,
            description := "Definição de saldo em massa", balance_after := op.amount }
        (s2, true)
      else (s, false)

/-- POST /api/admin2/users/bulk-balance, src/eu.js lines 3108-3323, in the
failure-free execution: each item processed independently, then one summary
SystemLog. -/
def bulkBalance (s : State) (ops : List BulkOp) : State :=
  let s1 := ops.foldl (fun acc op => (bulkStep acc op).1) s
  appendLog s1 { action := "BULK_BALANCE_ADJUSTMENT", user_id := none }

/-- The observable outcome of a bulk add item whose prisma.transaction.create
call fails, src/eu.js lines 3152-3175 and the per-item catch at 3281-3287:
the saldo increment at line 3152 is its own committed store call, the failed
transaction.create is caught and the loop continues, so the balance change
persists with no Transaction row. -/
def bulkAddItemTxnCreateFails (s : State) (op : BulkOp) : State × Bool :=
  if op.amount ≤ 0 then (s, false)
  else
    match findUser s op.user_id with
    | none => (s, false)
    | some _ =>
      if op.action == "add" then
        (updateUserSaldo s op.user_id (fun b => b + op.amount), false)
      else (s, false)

/-- The variable result read by the success response of the deposit-approval
handler (src/eu.js line 1769) resolves to nothing: it is declared in no
enclosing scope (the handler declares only transaction, line 1660, and every
other occurrence of result in the file is let/const-scoped inside a different
function), so evaluating it throws a ReferenceError. -/
def resultInScope : Option Unit := none

/-- PUT /api/admin/deposit/:id/approve, src/eu.js lines 1659-1796: a missing
deposit is 404, an already completed one is rejected with 400 and no mutation
(lines 1688-1694); otherwise one prisma.$transaction credits the saldo, marks
the deposit completed, appends a deposit Transaction with balance_after the
updated saldo and a SystemLog.  After the commit, the success response reads
the undefined variable result (line 1769), so the thrown ReferenceError is
answered by the catch with a 500 although the state change is committed. -/
def depositApprove (s : State) (did : Nat) : Resp × State :=
  match findDeposit s did with
  | none => ({ status := 404, success := false, message := "Depósito não encontrado" }, s)
  | some d =>
    if d.status == "completed" then
      ({ status := 400, success := false, message := "Depósito já foi processado" }, s)
    else
      match findUser s d.user_id with
      | none => ({ status := 500, success := false, message := "Erro interno do servidor" }, s)
      | some u =>
        let s1 := updateUserSaldo s d.user_id (fun b => b + d.amount)
        let s2 := updateDepositById s1 did (fun dd => { dd with status := "completed" })
        let s3 := appendTxn s2
          { user_id := d.user_id, type := "deposit", amount := d.amount,
            description := "Depósito aprovado", balance_after := u.saldo + d.amount }
        let s4 := appendLog s3 { action := "DEPOSIT_APPROVED", user_id := some d.user_id }
        match resultInScope with
        | some _ => ({ status := 200, success := true, message := "Depósito aprovado com sucesso" }, s4)
        | none => ({ status := 500, success := false,
                     message := "Erro interno do servidor: result is not defined" }, s4)

/-- PUT /api/admin/withdrawal/:id/reject, src/eu.js lines 1909-1990: after the
existence lookup there is NO check of the withdrawal status; one
prisma.$transaction credits the amount back, sets the status to failed and
appends a withdrawal_refund Transaction with balance_after the updated saldo,
plus a SystemLog. -/
def withdrawalReject (s : State) (wid : Nat) : Resp × State :=
  match findWithdrawal s wid with
  | none => ({ status := 404, success := false, message := "Saque não encontrado" }, s)
  | some w =>
    match findUser s w.user_id with
    | none => ({ status := 500, success := false, message := "Erro interno do servidor" }, s)
    | some u =>
      let s1 := updateUserSaldo s w.user_id (fun b => b + w.amount)
      let s2 := updateWithdrawalById s1 wid (fun ww => { ww with status := "failed" })
      let s3 := appendTxn s2
        { user_id := w.user_id, type := "withdrawal_refund", amount := w.amount,
          description := "Devolução de saque rejeitado", balance_after := u.saldo + w.amount }
      let s4 := appendLog s3 { action := "WITHDRAWAL_REJECTED", user_id := some w.user_id }
      ({ status := 200, success := true, message := "Saque rejeitado com sucesso" }, s4)

/-- POST /api/withdraw, src/eu.js lines 6877-6992: amount and bank data are
validated, the saldo pre-check at line 6910 rejects before any mutation;
otherwise one prisma.$transaction debits the saldo, creates a pending
Withdrawal row (its generated id supplied here as newWid) and appends a
withdrawal Transaction of negative amount with balance_after the updated
saldo, plus a SystemLog. -/
def apiWithdraw (s : State) (uid : Nat) (amount : Int) (newWid : Nat) : Resp × State :=
  if amount ≤ 0 then ({ status := 400, success := false, message := "Valor de saque inválido" }, s)
  else
    match findUser s uid with
    | none => ({ status := 404, success := false, message := "Usuário não encontrado" }, s)
    | some u =>
      if u.saldo < amount then
        ({ status := 400, success := false, message := "Saldo insuficiente" }, s)
      else
        let s1 := updateUserSaldo s uid (fun b => b - amount)
        let s2 := { s1 with withdrawals := s1.withdrawals ++
          [{ id := newWid, user_id := uid, amount := amount, status := "pending" }] }
        let s3 := appendTxn s2
          { user_id := uid, type := "withdrawal", amount := -amount,
            description := "Saque bancário", balance_after := u.saldo - amount }
        let s4 := appendLog s3 { action := "WITHDRAWAL_REQUEST", user_id := some uid }
        ({ status := 200, success := true, message := "Saque solicitado com sucesso" }, s4)

/-- POST /api/purchase, src/eu.js lines 5149-5342.  Validation (line 5161)
requires only product_id, product_name and amount to be truthy; the saldo
pre-check at line 5190 rejects before any mutation.  One prisma.$transaction
debits the saldo, creates the Purchase row (quantity, daily_return and
cycle_days fall back to 1, 13 and 30 through the || defaults of lines
5234-5236; next_payout is now plus 24 hours, expiry now plus cycle_days days)
and appends a purchase Transaction of negative amount with balance_after the
updated saldo.  After the commit the referral distributor runs on the plain
prisma handle, then one SystemLog is appended.  newPid stands for the
store-generated purchase id. -/
def apiPurchase (s : State) (uid : Nat) (product_id : Nat) (product_name : String)
    (amount quantity daily_return cycle_days : Int) (now : Int) (newPid : Nat) : Resp × State :=
  if product_id = 0 ∨ product_name = "" ∨ amount = 0 then
    ({ status := 400, success := false, message := "Dados da compra incompletos" }, s)
  else
    match findUser s uid with
    | none => ({ status := 404, success := false, message := "Usuário não encontrado" }, s)
    | some u =>
      if u.saldo < amount then
        ({ status := 400, success := false, message := "Saldo insuficiente" }, s)
      else
        let nextPayout := now + 24 * msPerHour
        let expiryDate := now + jsOr cycle_days 30 * msPerDay
        let s1 := updateUserSaldo s uid (fun b => b - amount)
        let s2 := { s1 with purchases := s1.purchases ++
          [{ id := newPid, user_id := uid, product_id := product_id,
             product_name := product_name, amount := amount,
             quantity := jsOr quantity 1, daily_return := jsOr daily_return 13,
             cycle_days := jsOr cycle_days 30, purchase_date := now,
             next_payout := nextPayout, expiry_date := expiryDate,
             status := "active", total_earned := 0, payout_count := 0,
             last_payout := none, completed_at := none }] }
        let s3 := appendTxn s2
          { user_id := uid, type := "purchase", amount := -amount,
            description := "Compra: " ++ product_name, balance_after := u.saldo - amount }
        let s4 := distributeReferralBonuses s3 uid amount
        let s5 := appendLog s4 { action := "PURCHASE_COMPLETED", user_id := some uid }
        ({ status := 200, success := true, message := "Compra realizada com sucesso" }, s5)

/-- The Transaction rows of one account, in creation order. -/
def txnsFor (txns : List Txn) (uid : Nat) : List Txn :=
  txns.filter (fun t => t.user_id == uid)

/-- Sum of Transaction amounts. -/
def txnSum (l : List Txn) : Int :=
  (l.map (fun t => t.amount)).sum

/-- Every Transaction row carries balance_after equal to the running balance
immediately after its change, starting from bal. -/
def ledgerChain (bal : Int) : List Txn → Bool
  | [] => true
  | t :: rest => (t.balance_after == bal + t.amount) && ledgerChain (bal + t.amount) rest

/-- The reconciliation invariant of the spec: given each account's initial
balance, every account's Transaction rows chain correctly (each balance_after
is the balance immediately after that change) and the current saldo equals
the initial balance plus the sum of the Transaction amounts. -/
def reconciled (init : Nat → Int) (users : List User) (txns : List Txn) : Prop :=
  ∀ u ∈ users, ledgerChain (init u.id) (txnsFor txns u.id) = true ∧
    u.saldo = init u.id + txnSum (txnsFor txns u.id)

instance (init : Nat → Int) (users : List User) (txns : List Txn) :
    Decidable (reconciled init users txns) := by
  unfold reconciled; infer_instance

/-- The reconciliation invariant read off a store state. -/
def reconciledS (init : Nat → Int) (s : State) : Prop :=
  reconciled init s.users s.transactions

instance (init : Nat → Int) (s : State) : Decidable (reconciledS init s) := by
  unfold reconciledS; infer_instance

theorem find?_map_by_id {α : Type} (idOf : α → Nat) (g : α → α)
    (hg : ∀ x, idOf (g x) = idOf x) (l : List α) (k : Nat) :
    (l.map g).find? (fun x => idOf x == k) = (l.find? (fun x => idOf x == k)).map g := by
  induction l with
  | nil => rfl
  | cons x xs ih =>
    simp only [List.map_cons, List.find?_cons, hg x]
    cases h : (idOf x == k) with
    | true => simp
    | false => simpa using ih

theorem txnSum_append (l1 l2 : List Txn) : txnSum (l1 ++ l2) = txnSum l1 + txnSum l2 := by
  simp [txnSum]

theorem ledgerChain_append_single (t : Txn) : ∀ (l : List Txn) (b : Int),
    ledgerChain b (l ++ [t])
      = (ledgerChain b l && (t.balance_after == b + txnSum l + t.amount)) := by
  intro l
  induction l with
  | nil => intro b; simp [ledgerChain, txnSum]
  | cons x xs ih =>
    intro b
    simp [ledgerChain, ih (b + x.amount), txnSum, Bool.and_assoc, add_assoc]

theorem txnsFor_append_one (txns : List Txn) (t : Txn) (uid : Nat) :
    txnsFor (txns ++ [t]) uid
      = txnsFor txns uid ++ (if t.user_id == uid then [t] else []) := by
  simp only [txnsFor, List.filter_append]
  cases h : (t.user_id == uid) <;> simp [List.filter, h]

theorem findUser_mem {s : State} {uid : Nat} {u : User} (h : findUser s uid = some u) :
    u ∈ s.users :=
  List.mem_of_find?_eq_some h

theorem findUser_id {s : State} {uid : Nat} {u : User} (h : findUser s uid = some u) :
    u.id = uid := by
  have := List.find?_some h
  simpa using this

theorem findUser_updateUserSaldo (s : State) (uid k : Nat) (f : Int → Int) :
    findUser (updateUserSaldo s uid f) k
      = (findUser s k).map
          (fun v => if v.id == uid then { v with saldo := f v.saldo } else v) := by
  unfold findUser updateUserSaldo
  exact find?_map_by_id (fun u : User => u.id)
    (fun v => if v.id == uid then { v with saldo := f v.saldo } else v)
    (fun v => by by_cases h : (v.id == uid) = true <;> simp [h]) s.users k

theorem findUser_updateUserSaldo_self {s : State} {uid : Nat} {u : User} (f : Int → Int)
    (h : findUser s uid = some u) :
    findUser (updateUserSaldo s uid f) uid = some { u with saldo := f u.saldo } := by
  rw [findUser_updateUserSaldo, h]
  simp [findUser_id h]

theorem findUser_updateUserSaldo_other {s : State} {uid k : Nat} (f : Int → Int)
    (hne : k ≠ uid) :
    findUser (updateUserSaldo s uid f) k = findUser s k := by
  rw [findUser_updateUserSaldo]
  cases h : findUser s k with
  | none => rfl
  | some v => simp [findUser_id h, hne]

theorem txnSum_single (t : Txn) : txnSum [t] = t.amount := by
  simp [txnSum]

/-- Central preservation lemma: a saldo delta paired (inside whatever
surrounding unit) with exactly one appended Transaction row whose amount is
the delta and whose balance_after is the pre-change saldo of the found row
plus the delta preserves the reconciliation invariant. -/
theorem reconciled_adjust {init : Nat → Int} {users : List User} {txns : List Txn}
    {uid : Nat} {u : User} (f : Int → Int) (δ : Int) (t : Txn)
    (hfeq : ∀ b, f b = b + δ)
    (h : reconciled init users txns)
    (hfind : users.find? (fun v => v.id == uid) = some u)
    (ht_uid : t.user_id = uid) (ht_amt : t.amount = δ)
    (ht_ba : t.balance_after = u.saldo + δ) :
    reconciled init
      (users.map (fun v => if v.id == uid then { v with saldo := f v.saldo } else v))
      (txns ++ [t]) := by
  have hu_mem : u ∈ users := List.mem_of_find?_eq_some hfind
  have hu_id : u.id = uid := by simpa using List.find?_some hfind
  have hfilter_hit : txnsFor (txns ++ [t]) uid = txnsFor txns uid ++ [t] := by
    rw [txnsFor_append_one, ht_uid]
    simp
  obtain ⟨hcu, hsu⟩ := h u hu_mem
  rw [hu_id] at hsu
  intro w hw
  obtain ⟨v, hv, rfl⟩ := List.mem_map.mp hw
  obtain ⟨hcv, hsv⟩ := h v hv
  cases hid : (v.id == uid) with
  | true =>
    have hid' : v.id = uid := by simpa using hid
    rw [hid'] at hcv hsv
    simp only [hid, if_true]
    refine ⟨?_, ?_⟩
    · show ledgerChain (init v.id) (txnsFor (txns ++ [t]) v.id) = true
      rw [hid', hfilter_hit, ledgerChain_append_single, hcv]
      simp only [Bool.true_and, beq_iff_eq]
      rw [ht_ba, ht_amt]
      omega
    · show f v.saldo = init v.id + txnSum (txnsFor (txns ++ [t]) v.id)
      rw [hid', hfilter_hit, txnSum_append, txnSum_single, ht_amt, hfeq]
      omega
  | false =>
    have hne : v.id ≠ uid := by simpa using hid
    have hfilter : txnsFor (txns ++ [t]) v.id = txnsFor txns v.id := by
      rw [txnsFor_append_one, ht_uid]
      simp [Ne.symm hne]
    simp only [hid, Bool.false_eq_true, if_false]
    rw [hfilter]
    exact ⟨hcv, hsv⟩

/-- Preservation lemma for the balance-overwrite shape of set-balance: the
new saldo overwrites the old and the single appended Transaction carries the
signed difference and balance_after equal to the new saldo. -/
theorem reconciled_setTo {init : Nat → Int} {users : List User} {txns : List Txn}
    {uid : Nat} {u : User} (v' : Int) (t : Txn)
    (h : reconciled init users txns)
    (hfind : users.find? (fun v => v.id == uid) = some u)
    (ht_uid : t.user_id = uid) (ht_amt : t.amount = v' - u.saldo)
    (ht_ba : t.balance_after = v') :
    reconciled init
      (users.map (fun v => if v.id == uid then { v with saldo := v' } else v))
      (txns ++ [t]) := by
  have hu_mem : u ∈ users := List.mem_of_find?_eq_some hfind
  have hu_id : u.id = uid := by simpa using List.find?_some hfind
  have hfilter_hit : txnsFor (txns ++ [t]) uid = txnsFor txns uid ++ [t] := by
    rw [txnsFor_append_one, ht_uid]
    simp
  obtain ⟨hcu, hsu⟩ := h u hu_mem
  rw [hu_id] at hsu
  intro w hw
  obtain ⟨v, hv, rfl⟩ := List.mem_map.mp hw
  obtain ⟨hcv, hsv⟩ := h v hv
  cases hid : (v.id == uid) with
  | true =>
    have hid' : v.id = uid := by simpa using hid
    rw [hid'] at hcv hsv
    simp only [hid, if_true]
    refine ⟨?_, ?_⟩
    · show ledgerChain (init v.id) (txnsFor (txns ++ [t]) v.id) = true
      rw [hid', hfilter_hit, ledgerChain_append_single, hcv]
      simp only [Bool.true_and, beq_iff_eq]
      rw [ht_ba, ht_amt]
      omega
    · show v' = init v.id + txnSum (txnsFor (txns ++ [t]) v.id)
      rw [hid', hfilter_hit, txnSum_append, txnSum_single, ht_amt]
      omega
  | false =>
    have hne : v.id ≠ uid := by simpa using hid
    have hfilter : txnsFor (txns ++ [t]) v.id = txnsFor txns v.id := by
      rw [txnsFor_append_one, ht_uid]
      simp [Ne.symm hne]
    simp only [hid, Bool.false_eq_true, if_false]
    rw [hfilter]
    exact ⟨hcv, hsv⟩

theorem foldl_preserve {σ α : Type} (P : σ → Prop) (f : σ → α → σ)
    (hstep : ∀ s a, P s → P (f s a)) :
    ∀ (l : List α) (s : σ), P s → P (l.foldl f s) := by
  intro l
  induction l with
  | nil => intro s hs; exact hs
  | cons a l ih => intro s hs; exact ih _ (hstep s a hs)

theorem reconciledS_addBalance (init : Nat → Int) (s : State) (uid : Nat) (amt : Int)
    (h : reconciledS init s) : reconciledS init (addBalance s uid amt).2 := by
  unfold addBalance
  by_cases h1 : amt ≤ 0
  · simp only [if_pos h1]; exact h
  · simp only [if_neg h1]
    cases hfind : findUser s uid with
    | none => exact h
    | some u =>
      exact reconciled_adjust (fun b => b + amt) amt _ (fun _ => rfl) h hfind rfl rfl rfl

theorem reconciledS_deductBalance (init : Nat → Int) (s : State) (uid : Nat) (amt : Int)
    (h : reconciledS init s) : reconciledS init (deductBalance s uid amt).2 := by
  unfold deductBalance
  by_cases h1 : amt ≤ 0
  · simp only [if_pos h1]; exact h
  · simp only [if_neg h1]
    cases hfind : findUser s uid with
    | none => exact h
    | some u =>
      by_cases h2 : u.saldo < amt
      · simp only [if_pos h2]; exact h
      · simp only [if_neg h2]
        exact reconciled_adjust (fun b => b - amt) (-amt) _ (fun b => sub_eq_add_neg b amt)
          h hfind rfl rfl (sub_eq_add_neg u.saldo amt)

theorem reconciledS_setBalance (init : Nat → Int) (s : State) (uid : Nat) (nb : Int)
    (h : reconciledS init s) : reconciledS init (setBalance s uid nb).2 := by
  unfold setBalance
  by_cases h1 : nb < 0
  · simp only [if_pos h1]; exact h
  · simp only [if_neg h1]
    cases hfind : findUser s uid with
    | none => exact h
    | some u =>
      exact reconciled_setTo nb _ h hfind rfl rfl rfl

theorem reconciledS_bulkStep (init : Nat → Int) (s : State) (op : BulkOp)
    (h : reconciledS init s) : reconciledS init (bulkStep s op).1 := by
  unfold bulkStep
  by_cases h1 : op.amount ≤ 0
  · simp only [if_pos h1]; exact h
  · simp only [if_neg h1]
    cases hfind : findUser s op.user_id with
    | none => exact h
    | some u =>
      by_cases ha : (op.action == "add") = true
      · simp only [ha, if_true]
        exact reconciled_adjust (fun b => b + op.amount) op.amount _ (fun _ => rfl) h hfind
          rfl rfl rfl
      · simp only [ha, Bool.false_eq_true, if_false]
        by_cases hd : (op.action == "deduct") = true
        · simp only [hd, if_true]
          by_cases h2 : u.saldo < op.amount
          · simp only [if_pos h2]; exact h
          · simp only [if_neg h2]
            exact reconciled_adjust (fun b => b - op.amount) (-op.amount) _
              (fun b => sub_eq_add_neg b op.amount) h hfind rfl rfl
              (sub_eq_add_neg u.saldo op.amount)
        · simp only [hd, Bool.false_eq_true, if_false]
          by_cases hs : (op.action == "set") = true
          · simp only [hs, if_true]
            exact reconciled_setTo op.amount _ h hfind rfl rfl rfl
          · simp only [hs, Bool.false_eq_true, if_false]; exact h

theorem reconciledS_bulkBalance (init : Nat → Int) (s : State) (ops : List BulkOp)
    (h : reconciledS init s) : reconciledS init (bulkBalance s ops) := by
  unfold bulkBalance
  exact foldl_preserve (reconciledS init) _
    (fun s' op h' => reconciledS_bulkStep init s' op h') ops s h

theorem reconciledS_depositApprove (init : Nat → Int) (s : State) (did : Nat)
    (h : reconciledS init s) : reconciledS init (depositApprove s did).2 := by
  unfold depositApprove
  cases hd : findDeposit s did with
  | none => exact h
  | some d =>
    by_cases h1 : (d.status == "completed") = true
    · simp only [h1, if_true]; exact h
    · simp only [h1, Bool.false_eq_true, if_false]
      cases hfind : findUser s d.user_id with
      | none => exact h
      | some u =>
        exact reconciled_adjust (fun b => b + d.amount) d.amount _ (fun _ => rfl) h hfind
          rfl rfl rfl

theorem reconciledS_withdrawalReject (init : Nat → Int) (s : State) (wid : Nat)
    (h : reconciledS init s) : reconciledS init (withdrawalReject s wid).2 := by
  unfold withdrawalReject
  cases hw : findWithdrawal s wid with
  | none => exact h
  | some w =>
    cases hfind : findUser s w.user_id with
    | none => simp only [hfind]; exact h
    | some u =>
      simp only [hfind]
      exact reconciled_adjust (fun b => b + w.amount) w.amount _ (fun _ => rfl) h hfind
        rfl rfl rfl

theorem reconciledS_apiWithdraw (init : Nat → Int) (s : State) (uid : Nat) (amt : Int)
    (nwid : Nat) (h : reconciledS init s) : reconciledS init (apiWithdraw s uid amt nwid).2 := by
  unfold apiWithdraw
  by_cases h1 : amt ≤ 0
  · simp only [if_pos h1]; exact h
  · simp only [if_neg h1]
    cases hfind : findUser s uid with
    | none => exact h
    | some u =>
      by_cases h2 : u.saldo < amt
      · simp only [if_pos h2]; exact h
      · simp only [if_neg h2]
        exact reconciled_adjust (fun b => b - amt) (-amt) _ (fun b => sub_eq_add_neg b amt)
          h hfind rfl rfl (sub_eq_add_neg u.saldo amt)

theorem reconciledS_distributeBonusLevel (init : Nat → Int) (pid : Nat) (amt : Int)
    (s : State) (row : ReferralLevel) (h : reconciledS init s) :
    reconciledS init (distributeBonusLevel pid amt s row) := by
  unfold distributeBonusLevel
  cases hp : bonusPercent row.level with
  | none => exact h
  | some pct =>
    cases hfind : findUser s row.referrer_id with
    | none => exact h
    | some u =>
      by_cases h1 : (amt * pct).fdiv 100 > 0
      · simp only [if_pos h1]
        exact reconciled_adjust (fun b => b + (amt * pct).fdiv 100) ((amt * pct).fdiv 100) _
          (fun _ => rfl) h hfind rfl rfl rfl
      · simp only [if_neg h1]; exact h

theorem reconciledS_distributeReferralBonuses (init : Nat → Int) (s : State) (pid : Nat)
    (amt : Int) (h : reconciledS init s) :
    reconciledS init (distributeReferralBonuses s pid amt) := by
  unfold distributeReferralBonuses
  exact foldl_preserve (reconciledS init) _
    (fun s' row h' => reconciledS_distributeBonusLevel init pid amt s' row h')
    (referrerRows s pid) s h

theorem reconciledS_processDuePurchase (init : Nat → Int) (now : Int) (s : State)
    (p : Purchase) (h : reconciledS init s) :
    reconciledS init (processDuePurchase now s p) := by
  unfold processDuePurchase
  by_cases h1 : jsOr p.cycle_days 30 - daysPassed now p ≤ 0
  · simp only [if_pos h1]; exact h
  · simp only [if_neg h1]
    cases hfind : findUser s p.user_id with
    | none => exact h
    | some u =>
      exact reconciled_adjust (fun b => b + jsOr p.daily_return 13) (jsOr p.daily_return 13) _
        (fun _ => rfl) h hfind rfl rfl rfl

theorem reconciledS_processDailyPayouts (init : Nat → Int) (now : Int) (s : State)
    (h : reconciledS init s) : reconciledS init (processDailyPayouts now s) := by
  unfold processDailyPayouts
  by_cases h1 : (duePurchases now s).isEmpty
  · simp only [if_pos h1]; exact h
  · simp only [if_neg h1]
    exact foldl_preserve (reconciledS init) _
      (fun s' p h' => reconciledS_processDuePurchase init now s' p h') (duePurchases now s) s h

theorem reconciledS_apiPurchase (init : Nat → Int) (s : State) (uid product_id : Nat)
    (product_name : String) (amount quantity daily_return cycle_days now : Int) (newPid : Nat)
    (h : reconciledS init s) :
    reconciledS init
      (apiPurchase s uid product_id product_name amount quantity daily_return cycle_days
        now newPid).2 := by
  unfold apiPurchase
  by_cases h1 : product_id = 0 ∨ product_name = "" ∨ amount = 0
  · simp only [if_pos h1]; exact h
  · simp only [if_neg h1]
    cases hfind : findUser s uid with
    | none => exact h
    | some u =>
      by_cases h2 : u.saldo < amount
      · simp only [if_pos h2]; exact h
      · simp only [if_neg h2]
        refine reconciledS_distributeReferralBonuses init _ uid amount ?_
        exact reconciled_adjust (fun b => b - amount) (-amount) _
          (fun b => sub_eq_add_neg b amount) h hfind rfl rfl
          (sub_eq_add_neg u.saldo amount)

def cxC1init : Nat → Int := fun uid => if uid = 1 then 100 else 0

def cxC1s : State :=
  { users := [{ id := 1, saldo := 100, inviter_id := none }], purchases := [],
    transactions := [], referralLevels := [], referralBonuses := [], deposits := [],
    withdrawals := [], logs := [] }

/-- Claim C1, counterexample: the bulk-balance variant does not commit the
balance change and its Transaction row as one atomic unit.  In the source the
saldo increment (src/eu.js line 3152) and the transaction.create (line 3166)
are separate store calls with no surrounding store transaction, and the
per-item catch (line 3281) continues after a failure; when the
transaction.create fails, a user with initial balance 100 receives the add of
50 (balance 150) while no Transaction row exists, so summing the Transaction
amounts (0) differs from balance minus initial balance (50): the
reconciliation property breaks. -/
theorem C1_bulk_nonatomic_cx :
    reconciledS cxC1init cxC1s ∧
    (bulkAddItemTxnCreateFails cxC1s { user_id := 1, action := "add", amount := 50 }).1.transactions = [] ∧
    saldoOf (bulkAddItemTxnCreateFails cxC1s { user_id := 1, action := "add", amount := 50 }).1 1 = some 150 ∧
    ¬ reconciledS cxC1init
      (bulkAddItemTxnCreateFails cxC1s { user_id := 1, action := "add", amount := 50 }).1 := by
  decide

/-- Claim C1, amended: in complete failure-free executions every listed
operation pairs each balance change with exactly one Transaction row whose
balance_after equals the balance immediately after that change, so all of
them preserve the reconciliation invariant (each account's Transaction rows
chain by balance_after and sum to balance minus initial balance).  The
payout, purchase-debit, deposit-approval, withdrawal request and refund, and
single-user admin operations do so inside one atomic store transaction, but
the bulk variants and the referral bonus credits issue the balance update and
the Transaction insert as separate store calls, so there a failure between
the two calls can leave a balance change without its row (see the
counterexample). -/
theorem C1_ledger_reconciliation (init : Nat → Int) :
    (∀ now s p, reconciledS init s → reconciledS init (processDuePurchase now s p)) ∧
    (∀ now s, reconciledS init s → reconciledS init (processDailyPayouts now s)) ∧
    (∀ s uid pid pname amt qty dr cd now npid, reconciledS init s →
       reconciledS init (apiPurchase s uid pid pname amt qty dr cd now npid).2) ∧
    (∀ s pid amt, reconciledS init s → reconciledS init (distributeReferralBonuses s pid amt)) ∧
    (∀ s did, reconciledS init s → reconciledS init (depositApprove s did).2) ∧
    (∀ s uid amt nwid, reconciledS init s → reconciledS init (apiWithdraw s uid amt nwid).2) ∧
    (∀ s wid, reconciledS init s → reconciledS init (withdrawalReject s wid).2) ∧
    (∀ s uid amt, reconciledS init s → reconciledS init (addBalance s uid amt).2) ∧
    (∀ s uid amt, reconciledS init s → reconciledS init (deductBalance s uid amt).2) ∧
    (∀ s uid nb, reconciledS init s → reconciledS init (setBalance s uid nb).2) ∧
    (∀ s ops, reconciledS init s → reconciledS init (bulkBalance s ops)) :=
  ⟨fun now s p => reconciledS_processDuePurchase init now s p,
   fun now s => reconciledS_processDailyPayouts init now s,
   fun s uid pid pname amt qty dr cd now npid =>
     reconciledS_apiPurchase init s uid pid pname amt qty dr cd now npid,
   fun s pid amt => reconciledS_distributeReferralBonuses init s pid amt,
   fun s did => reconciledS_depositApprove init s did,
   fun s uid amt nwid => reconciledS_apiWithdraw init s uid amt nwid,
   fun s wid => reconciledS_withdrawalReject init s wid,
   fun s uid amt => reconciledS_addBalance init s uid amt,
   fun s uid amt => reconciledS_deductBalance init s uid amt,
   fun s uid nb => reconciledS_setBalance init s uid nb,
   fun s ops => reconciledS_bulkBalance init s ops⟩

def wC1p : Purchase :=
  { id := 1, user_id := 2, product_id := 3, product_name := "Prod", amount := 500,
    quantity := 1, daily_return := 13, cycle_days := 30,
    purchase_date := 99 * msPerDay, next_payout := 100 * msPerDay - msPerHour,
    expiry_date := 129 * msPerDay, status := "active", total_earned := 0,
    payout_count := 0, last_payout := none, completed_at := none }

def wC1s : State :=
  { users := [{ id := 1, saldo := 100, inviter_id := none },
              { id := 2, saldo := 60, inviter_id := some 1 }],
    purchases := [wC1p], transactions := [],
    referralLevels := [{ referrer_id := 1, user_id := 2, level := 1 }],
    referralBonuses := [],
    deposits := [{ id := 1, user_id := 1, amount := 200, status := "pending" }],
    withdrawals := [{ id := 1, user_id := 1, amount := 50, status := "pending" }],
    logs := [] }

def wC1init : Nat → Int := fun uid => if uid = 1 then 100 else if uid = 2 then 60 else 0

theorem C1_ledger_reconciliation_w :
    reconciledS wC1init (processDuePurchase (100 * msPerDay) wC1s wC1p) ∧
    reconciledS wC1init (processDailyPayouts (100 * msPerDay) wC1s) ∧
    reconciledS wC1init (apiPurchase wC1s 2 5 "Prod" 40 1 0 0 (100 * msPerDay) 9).2 ∧
    reconciledS wC1init (distributeReferralBonuses wC1s 2 40) ∧
    reconciledS wC1init (depositApprove wC1s 1).2 ∧
    reconciledS wC1init (apiWithdraw wC1s 1 40 3).2 ∧
    reconciledS wC1init (withdrawalReject wC1s 1).2 ∧
    reconciledS wC1init (addBalance wC1s 1 50).2 ∧
    reconciledS wC1init (deductBalance wC1s 1 30).2 ∧
    reconciledS wC1init (setBalance wC1s 1 70).2 ∧
    reconciledS wC1init (bulkBalance wC1s [{ user_id := 1, action := "add", amount := 5 }]) := by
  have h := C1_ledger_reconciliation wC1init
  exact ⟨h.1 (100 * msPerDay) wC1s wC1p (by decide),
         h.2.1 (100 * msPerDay) wC1s (by decide),
         h.2.2.1 wC1s 2 5 "Prod" 40 1 0 0 (100 * msPerDay) 9 (by decide),
         h.2.2.2.1 wC1s 2 40 (by decide),
         h.2.2.2.2.1 wC1s 1 (by decide),
         h.2.2.2.2.2.1 wC1s 1 40 3 (by decide),
         h.2.2.2.2.2.2.1 wC1s 1 (by decide),
         h.2.2.2.2.2.2.2.1 wC1s 1 50 (by decide),
         h.2.2.2.2.2.2.2.2.1 wC1s 1 30 (by decide),
         h.2.2.2.2.2.2.2.2.2.1 wC1s 1 70 (by decide),
         h.2.2.2.2.2.2.2.2.2.2 wC1s [{ user_id := 1, action := "add", amount := 5 }] (by decide)⟩

def cxNow : Int := 100 * msPerDay

def cxC2p : Purchase :=
  { id := 1, user_id := 1, product_id := 1, product_name := "P", amount := 500,
    quantity := 1, daily_return := 13, cycle_days := 30,
    purchase_date := cxNow - 5 * msPerDay, next_payout := cxNow - msPerHour,
    expiry_date := cxNow + 25 * msPerDay, status := "active", total_earned := 0,
    payout_count := 0, last_payout := none, completed_at := none }

def cxC2s : State :=
  { users := [{ id := 1, saldo := 0, inviter_id := none }], purchases := [cxC2p],
    transactions := [], referralLevels := [], referralBonuses := [], deposits := [],
    withdrawals := [], logs := [] }

/-- Claim C2, counterexample: the claim covers both cited payout endpoints,
but POST /api/process-payouts (src/eu.js lines 5764-5765 and 5837) sets
next_payout to now plus 24 hours, not to the prior next_payout plus 24 hours,
and records the Transaction with type payout, not daily_payout_auto.  On a
due purchase whose prior next_payout is one hour before now, the credited
purchase ends with next_payout equal to now plus 24 hours, which differs from
the prior value plus 24 hours, and the appended Transaction has type
payout. -/
theorem C2_now_window_cx :
    (processPayouts cxNow cxC2s).purchases
      = [{ cxC2p with next_payout := cxNow + 24 * msPerHour, total_earned := 13,
                      payout_count := 1, last_payout := some cxNow }] ∧
    cxNow + 24 * msPerHour ≠ cxC2p.next_payout + 24 * msPerHour ∧
    (processPayouts cxNow cxC2s).transactions.map (fun t => t.type) = ["payout"] ∧
    "payout" ≠ "daily_payout_auto" := by
  decide

/-- Claim C2, amended: for every due purchase with an incomplete cycle and an
existing owner, the per-purchase atomic unit of POST /api/process-daily-payouts
increments the owner balance by the purchase daily_return (13 when missing or
zero), sets next_payout to the purchase PRIOR next_payout plus 24 hours,
increments total_earned by daily_return and payout_count by 1, sets
last_payout to now, and appends one Transaction of type daily_payout_auto
with balance_after the updated balance plus one SystemLog entry.  The
duplicate endpoint POST /api/process-payouts applies the same credit but sets
next_payout to now plus 24 hours and appends the Transaction with type
payout. -/
theorem C2_payout_credit_effects :
    ∀ (now : Int) (s : State) (p : Purchase) (u : User),
      isDue now p = true →
      0 < jsOr p.cycle_days 30 - daysPassed now p →
      findUser s p.user_id = some u →
      (findUser (processDuePurchase now s p) p.user_id
         = some { u with saldo := u.saldo + jsOr p.daily_return 13 } ∧
       (processDuePurchase now s p).purchases
         = s.purchases.map (fun q => if q.id == p.id then
             { q with next_payout := p.next_payout + 24 * msPerHour,
                      total_earned := q.total_earned + jsOr p.daily_return 13,
                      payout_count := q.payout_count + 1,
                      last_payout := some now } else q) ∧
       (processDuePurchase now s p).transactions
         = s.transactions ++
           [{ user_id := p.user_id, type := "daily_payout_auto",
              amount := jsOr p.daily_return 13,
              description := "Rendimento automático: " ++ p.product_name,
              balance_after := u.saldo + jsOr p.daily_return 13 }] ∧
       (processDuePurchase now s p).logs
         = s.logs ++ [{ action := "AUTO_DAILY_PAYOUT", user_id := some p.user_id }]) ∧
      ((processPayoutsStep now s p).purchases
         = s.purchases.map (fun q => if q.id == p.id then
             { q with next_payout := now + 24 * msPerHour,
                      total_earned := q.total_earned + jsOr p.daily_return 13,
                      payout_count := q.payout_count + 1,
                      last_payout := some now } else q) ∧
       (processPayoutsStep now s p).transactions
         = s.transactions ++
           [{ user_id := p.user_id, type := "payout",
              amount := jsOr p.daily_return 13,
              description := "Rendimento diário: " ++ p.product_name,
              balance_after := u.saldo + jsOr p.daily_return 13 }]) := by
  intro now s p u hdue hrem hfind
  have hrem' : ¬(jsOr p.cycle_days 30 - daysPassed now p ≤ 0) := by omega
  unfold processDuePurchase processPayoutsStep
  simp only [if_neg hrem', hfind]
  exact ⟨⟨findUser_updateUserSaldo_self (fun b => b + jsOr p.daily_return 13) hfind,
    rfl, rfl, rfl⟩, rfl, rfl⟩

def wC2p : Purchase :=
  { id := 4, user_id := 2, product_id := 7, product_name := "Q", amount := 650,
    quantity := 1, daily_return := 13, cycle_days := 30,
    purchase_date := cxNow - 3 * msPerDay, next_payout := cxNow - 2 * msPerHour,
    expiry_date := cxNow + 27 * msPerDay, status := "active", total_earned := 39,
    payout_count := 3, last_payout := some (cxNow - msPerDay), completed_at := none }

def wC2s : State :=
  { users := [{ id := 2, saldo := 20, inviter_id := none }], purchases := [wC2p],
    transactions := [], referralLevels := [], referralBonuses := [], deposits := [],
    withdrawals := [], logs := [] }

theorem C2_payout_credit_effects_w :
    findUser (processDuePurchase cxNow wC2s wC2p) 2 = some { id := 2, saldo := 33, inviter_id := none } ∧
    (processDuePurchase cxNow wC2s wC2p).purchases
      = [{ wC2p with next_payout := wC2p.next_payout + 24 * msPerHour, total_earned := 52,
                     payout_count := 4, last_payout := some cxNow }] ∧
    (processPayoutsStep cxNow wC2s wC2p).purchases
      = [{ wC2p with next_payout := cxNow + 24 * msPerHour, total_earned := 52,
                     payout_count := 4, last_payout := some cxNow }] := by
  have h := C2_payout_credit_effects cxNow wC2s wC2p
    { id := 2, saldo := 20, inviter_id := none } (by decide) (by decide) (by decide)
  refine ⟨?_, ?_, ?_⟩
  · exact h.1.1
  · rw [h.1.2.1]; decide
  · rw [h.2.1]; decide

def cxC4p : Purchase :=
  { id := 1, user_id := 1, product_id := 1, product_name := "P", amount := 500,
    quantity := 1, daily_return := 13, cycle_days := 30,
    purchase_date := cxNow - 25 * msPerHour, next_payout := cxNow - 1,
    expiry_date := cxNow + msPerDay, status := "active", total_earned := 390,
    payout_count := 30, last_payout := none, completed_at := none }

def cxC4s : State :=
  { users := [{ id := 1, saldo := 0, inviter_id := none }], purchases := [cxC4p],
    transactions := [], referralLevels := [], referralBonuses := [], deposits := [],
    withdrawals := [], logs := [] }

/-- Claim C4, counterexample: the Payout Engine never consults payout_count
(src/eu.js lines 183-205 test only the elapsed days).  A due purchase whose
payout_count already equals its cycle_days (30) but whose purchase_date is
only 25 hours old is credited again instead of being completed: the engine
leaves it active with payout_count 31 and credits 13 to the owner. -/
theorem C4_payout_count_not_checked_cx :
    cxC4p.payout_count = 30 ∧ cxC4p.cycle_days = 30 ∧
    (processDailyPayouts cxNow cxC4s).purchases
      = [{ cxC4p with next_payout := cxC4p.next_payout + 24 * msPerHour,
                      total_earned := 403, payout_count := 31, last_payout := some cxNow }] ∧
    saldoOf (processDailyPayouts cxNow cxC4s) 1 = some 13 := by
  decide

/-- Claim C4, amended: cycle termination is governed solely by elapsed days:
when floor of (now minus purchase_date) in days is at least cycle_days
(defaulted to 30 when missing or zero), the Payout Engine marks the purchase
completed and performs no balance change and no Transaction; payout_count is
not consulted.  A completed purchase is never selected by the due-purchase
window again (the window requires status active), so no further credits occur
for it. -/
theorem C4_cycle_completion_by_elapsed_days :
    (∀ now s p, daysPassed now p ≥ jsOr p.cycle_days 30 →
       (processDuePurchase now s p).users = s.users ∧
       (processDuePurchase now s p).transactions = s.transactions ∧
       (processDuePurchase now s p).purchases
         = s.purchases.map (fun q => if q.id == p.id then
             { q with status := "completed", completed_at := some now } else q)) ∧
    (∀ now s q, q ∈ duePurchases now s → q.status = "active") := by
  constructor
  · intro now s p hdays
    have hrem : jsOr p.cycle_days 30 - daysPassed now p ≤ 0 := by omega
    unfold processDuePurchase
    simp only [if_pos hrem]
    exact ⟨rfl, rfl, rfl⟩
  · intro now s q hq
    have hdue := List.of_mem_filter hq
    simp only [isDue, Bool.and_eq_true, beq_iff_eq, decide_eq_true_eq] at hdue
    exact hdue.1.1

def wC4p : Purchase :=
  { cxC4p with purchase_date := cxNow - 31 * msPerDay, payout_count := 12, total_earned := 156 }

def wC4s : State := { cxC4s with purchases := [wC4p] }

theorem C4_cycle_completion_by_elapsed_days_w :
    ((processDuePurchase cxNow wC4s wC4p).users = wC4s.users ∧
     (processDuePurchase cxNow wC4s wC4p).transactions = wC4s.transactions ∧
     (processDuePurchase cxNow wC4s wC4p).purchases
       = [{ wC4p with status := "completed", completed_at := some cxNow }]) ∧
    cxC4p.status = "active" := by
  have h := C4_cycle_completion_by_elapsed_days
  have h1 := h.1 cxNow wC4s wC4p (by decide)
  have h2 := h.2 cxNow cxC4s cxC4p (by decide)
  exact ⟨⟨h1.1, h1.2.1, by rw [h1.2.2]; decide⟩, h2⟩

/-- Claim C5: each ReferralLevel row present for the purchaser is paid
floor(purchaseAmount * percentage) with the fixed table 25 percent at level 1,
2 percent at level 2 and 1 percent at level 3; exactly when that bonusAmount
is positive, the sponsor balance is credited by it together with one
referral_bonus Transaction whose balance_after is the sponsor post-credit
balance and one ReferralBonus audit row; when the bonusAmount is not positive
the level performs no mutation at all. -/
theorem C5_referral_bonus_per_level :
    (bonusPercent 1 = some 25 ∧ bonusPercent 2 = some 2 ∧ bonusPercent 3 = some 1) ∧
    (∀ s pid amt, distributeReferralBonuses s pid amt
       = (referrerRows s pid).foldl (distributeBonusLevel pid amt) s) ∧
    (∀ (s : State) (pid : Nat) (amt : Int) (row : ReferralLevel) (pct : Int) (u : User),
       bonusPercent row.level = some pct →
       findUser s row.referrer_id = some u →
       (0 < (amt * pct).fdiv 100 →
          findUser (distributeBonusLevel pid amt s row) row.referrer_id
            = some { u with saldo := u.saldo + (amt * pct).fdiv 100 } ∧
          (distributeBonusLevel pid amt s row).transactions
            = s.transactions ++
              [{ user_id := row.referrer_id, type := "referral_bonus",
                 amount := (amt * pct).fdiv 100, description := "Bônus de indicação",
                 balance_after := u.saldo + (amt * pct).fdiv 100 }] ∧
          (distributeBonusLevel pid amt s row).referralBonuses
            = s.referralBonuses ++
              [{ referrer_id := row.referrer_id, referred_user_id := pid,
                 level := row.level, purchase_amount := amt,
                 bonus_amount := (amt * pct).fdiv 100, bonus_percentage := pct }]) ∧
       (¬ 0 < (amt * pct).fdiv 100 → distributeBonusLevel pid amt s row = s)) := by
  refine ⟨by decide, fun s pid amt => rfl, ?_⟩
  intro s pid amt row pct u hp hfind
  unfold distributeBonusLevel
  simp only [hp, hfind]
  constructor
  · intro hb
    simp only [if_pos hb]
    exact ⟨findUser_updateUserSaldo_self (fun b => b + (amt * pct).fdiv 100) hfind, rfl, rfl⟩
  · intro hb
    simp only [if_neg hb]

def wC5s : State :=
  { users := [{ id := 1, saldo := 10, inviter_id := none },
              { id := 2, saldo := 0, inviter_id := some 1 }],
    purchases := [], transactions := [], referralLevels := [], referralBonuses := [],
    deposits := [], withdrawals := [], logs := [] }

theorem C5_referral_bonus_per_level_w :
    (findUser (distributeBonusLevel 2 500 wC5s { referrer_id := 1, user_id := 2, level := 1 }) 1
       = some { id := 1, saldo := 135, inviter_id := none } ∧
     (distributeBonusLevel 2 500 wC5s { referrer_id := 1, user_id := 2, level := 1 }).transactions
       = [{ user_id := 1, type := "referral_bonus", amount := 125,
            description := "Bônus de indicação", balance_after := 135 }]) ∧
    distributeBonusLevel 2 50 wC5s { referrer_id := 1, user_id := 2, level := 3 } = wC5s := by
  have h := C5_referral_bonus_per_level
  have hpos := (h.2.2 wC5s 2 500 { referrer_id := 1, user_id := 2, level := 1 } 25
    { id := 1, saldo := 10, inviter_id := none } (by decide) (by decide)).1 (by decide)
  have hzero := (h.2.2 wC5s 2 50 { referrer_id := 1, user_id := 2, level := 3 } 1
    { id := 1, saldo := 10, inviter_id := none } (by decide) (by decide)).2 (by decide)
  exact ⟨⟨hpos.1, hpos.2.1⟩, hzero⟩

theorem findUser_appendReferralLevel (s : State) (r : ReferralLevel) (k : Nat) :
    findUser (appendReferralLevel s r) k = findUser s k := rfl

theorem distributeBonusLevel_untouched (pid : Nat) (amt : Int) (s : State)
    (row : ReferralLevel) (w : Nat) (hne : w ≠ row.referrer_id) :
    findUser (distributeBonusLevel pid amt s row) w = findUser s w ∧
    txnsFor (distributeBonusLevel pid amt s row).transactions w = txnsFor s.transactions w ∧
    (distributeBonusLevel pid amt s row).referralBonuses.filter (fun b => b.referrer_id == w)
      = s.referralBonuses.filter (fun b => b.referrer_id == w) := by
  unfold distributeBonusLevel
  cases hp : bonusPercent row.level with
  | none => exact ⟨by rfl, by rfl, by rfl⟩
  | some pct =>
    cases hfind : findUser s row.referrer_id with
    | none => simp only [hfind]; exact ⟨by trivial, by trivial, by trivial⟩
    | some u =>
      simp only [hfind]
      by_cases hb : (amt * pct).fdiv 100 > 0
      · simp only [if_pos hb]
        refine ⟨findUser_updateUserSaldo_other (fun b => b + (amt * pct).fdiv 100) hne, ?_, ?_⟩
        · show txnsFor (s.transactions ++
            [({ user_id := row.referrer_id, type := "referral_bonus",
                amount := (amt * pct).fdiv 100, description := "Bônus de indicação",
                balance_after := u.saldo + (amt * pct).fdiv 100 } : Txn)]) w
            = txnsFor s.transactions w
          rw [txnsFor_append_one]
          simp [Ne.symm hne]
        · show (s.referralBonuses ++
              [({ referrer_id := row.referrer_id, referred_user_id := pid, level := row.level,
                  purchase_amount := amt, bonus_amount := (amt * pct).fdiv 100,
                  bonus_percentage := pct } : ReferralBonus)]).filter (fun b => b.referrer_id == w)
            = s.referralBonuses.filter (fun b => b.referrer_id == w)
          rw [List.filter_append]
          simp [Ne.symm hne]
      · simp only [if_neg hb]
        exact ⟨by trivial, by trivial, by trivial⟩

theorem distribute_foldl_untouched (pid : Nat) (amt : Int) (w : Nat) :
    ∀ (rows : List ReferralLevel) (s : State),
      (∀ r ∈ rows, w ≠ r.referrer_id) →
      findUser (rows.foldl (distributeBonusLevel pid amt) s) w = findUser s w ∧
      txnsFor (rows.foldl (distributeBonusLevel pid amt) s).transactions w
        = txnsFor s.transactions w ∧
      (rows.foldl (distributeBonusLevel pid amt) s).referralBonuses.filter
          (fun b => b.referrer_id == w)
        = s.referralBonuses.filter (fun b => b.referrer_id == w) := by
  intro rows
  induction rows with
  | nil => intro s _; exact ⟨rfl, rfl, rfl⟩
  | cons r rows ih =>
    intro s hall
    have hr := distributeBonusLevel_untouched pid amt s r w (hall r (List.mem_cons_self r rows))
    have hrec := ih (distributeBonusLevel pid amt s r)
      (fun r' hr' => hall r' (List.mem_cons_of_mem r hr'))
    exact ⟨hrec.1.trans hr.1, hrec.2.1.trans hr.2.1, hrec.2.2.trans hr.2.2⟩

/-- Claim C6: for a purchaser u0 whose inviter chain is u1, u2, u3, u4, u5
(depth 5), registration materializes exactly the three ReferralLevel rows of
levels 1, 2, 3 pointing at u1, u2, u3, the commission table has no entry for
levels beyond 3, and a purchase by u0 distributes nothing to any account
other than u1, u2, u3 — in particular the level-4 and level-5 ancestors u4
and u5 keep their balance, gain no Transaction and gain no ReferralBonus
row. -/
theorem C6_fanout_bounded_three_levels :
    ∀ (s : State) (u0 u1 u2 u3 u4 u5 : User) (amt : Int),
      findUser s u0.id = some u0 → u0.inviter_id = some u1.id →
      findUser s u1.id = some u1 → u1.inviter_id = some u2.id →
      findUser s u2.id = some u2 → u2.inviter_id = some u3.id →
      findUser s u3.id = some u3 → u3.inviter_id = some u4.id →
      findUser s u4.id = some u4 → u4.inviter_id = some u5.id →
      s.referralLevels.filter (fun r => r.user_id == u0.id) = [] →
      ∀ (w : User), w.id ≠ u1.id → w.id ≠ u2.id → w.id ≠ u3.id →
      (createReferralNetwork s u1.id u0.id).referralLevels
        = s.referralLevels ++
          [{ referrer_id := u1.id, user_id := u0.id, level := 1 },
           { referrer_id := u2.id, user_id := u0.id, level := 2 },
           { referrer_id := u3.id, user_id := u0.id, level := 3 }] ∧
      bonusPercent 4 = none ∧ bonusPercent 5 = none ∧
      (let s2 := distributeReferralBonuses (createReferralNetwork s u1.id u0.id) u0.id amt
       findUser s2 w.id = findUser s w.id ∧
       txnsFor s2.transactions w.id = txnsFor s.transactions w.id ∧
       s2.referralBonuses.filter (fun b => b.referrer_id == w.id)
         = s.referralBonuses.filter (fun b => b.referrer_id == w.id)) := by
  intro s u0 u1 u2 u3 u4 u5 amt h0 hi0 h1 hi1 h2 hi2 h3 hi3 h4 hi4 hempty w hw1 hw2 hw3
  have hs1 : createReferralNetwork s u1.id u0.id
      = appendReferralLevel (appendReferralLevel (appendReferralLevel s
          { referrer_id := u1.id, user_id := u0.id, level := 1 })
          { referrer_id := u2.id, user_id := u0.id, level := 2 })
          { referrer_id := u3.id, user_id := u0.id, level := 3 } := by
    unfold createReferralNetwork
    simp only [findUser_appendReferralLevel, h1, hi1, h2, hi2]
  have hrows : referrerRows (createReferralNetwork s u1.id u0.id) u0.id
      = [{ referrer_id := u1.id, user_id := u0.id, level := 1 },
         { referrer_id := u2.id, user_id := u0.id, level := 2 },
         { referrer_id := u3.id, user_id := u0.id, level := 3 }] := by
    rw [hs1]
    unfold referrerRows appendReferralLevel
    simp [List.filter_append, hempty, sortByLevel, insertByLevel]
  refine ⟨by rw [hs1]; simp [appendReferralLevel], by decide, by decide, ?_⟩
  have hfold := distribute_foldl_untouched u0.id amt w.id
    (referrerRows (createReferralNetwork s u1.id u0.id) u0.id)
    (createReferralNetwork s u1.id u0.id)
    (by rw [hrows]
        intro r hr
        simp only [List.mem_cons, List.not_mem_nil, or_false] at hr
        rcases hr with rfl | rfl | rfl
        · exact hw1
        · exact hw2
        · exact hw3)
  have hcrn_user : findUser (createReferralNetwork s u1.id u0.id) w.id = findUser s w.id := by
    rw [hs1]; rfl
  have hcrn_txn : txnsFor (createReferralNetwork s u1.id u0.id).transactions w.id
      = txnsFor s.transactions w.id := by
    rw [hs1]
    rfl
  have hcrn_rb : (createReferralNetwork s u1.id u0.id).referralBonuses.filter
      (fun b => b.referrer_id == w.id) = s.referralBonuses.filter (fun b => b.referrer_id == w.id) := by
    rw [hs1]
    rfl
  exact ⟨hfold.1.trans hcrn_user, hfold.2.1.trans hcrn_txn, hfold.2.2.trans hcrn_rb⟩

def wC6s : State :=
  { users := [{ id := 10, saldo := 500, inviter_id := some 11 },
              { id := 11, saldo := 0, inviter_id := some 12 },
              { id := 12, saldo := 0, inviter_id := some 13 },
              { id := 13, saldo := 0, inviter_id := some 14 },
              { id := 14, saldo := 0, inviter_id := some 15 },
              { id := 15, saldo := 0, inviter_id := none }],
    purchases := [], transactions := [], referralLevels := [], referralBonuses := [],
    deposits := [], withdrawals := [], logs := [] }

theorem C6_fanout_bounded_three_levels_w :
    (createReferralNetwork wC6s 11 10).referralLevels
      = [{ referrer_id := 11, user_id := 10, level := 1 },
         { referrer_id := 12, user_id := 10, level := 2 },
         { referrer_id := 13, user_id := 10, level := 3 }] ∧
    (let s2 := distributeReferralBonuses (createReferralNetwork wC6s 11 10) 10 500
     findUser s2 14 = findUser wC6s 14 ∧
     txnsFor s2.transactions 14 = txnsFor wC6s.transactions 14 ∧
     s2.referralBonuses.filter (fun b => b.referrer_id == 14)
       = wC6s.referralBonuses.filter (fun b => b.referrer_id == 14)) := by
  have h := C6_fanout_bounded_three_levels wC6s
    { id := 10, saldo := 500, inviter_id := some 11 }
    { id := 11, saldo := 0, inviter_id := some 12 }
    { id := 12, saldo := 0, inviter_id := some 13 }
    { id := 13, saldo := 0, inviter_id := some 14 }
    { id := 14, saldo := 0, inviter_id := some 15 }
    { id := 15, saldo := 0, inviter_id := none } 500
    (by decide) (by decide) (by decide) (by decide) (by decide) (by decide)
    (by decide) (by decide) (by decide) (by decide) (by decide)
    { id := 14, saldo := 0, inviter_id := some 15 } (by decide) (by decide) (by decide)
  exact ⟨h.1, h.2.2.2⟩

theorem nonneg_updateUserSaldo {s : State} {uid : Nat} {u : User} (f : Int → Int)
    (hnodup : (s.users.map (fun x => x.id)).Nodup)
    (hpos : ∀ v ∈ s.users, 0 ≤ v.saldo)
    (hfind : findUser s uid = some u)
    (hres : 0 ≤ f u.saldo) :
    ∀ v ∈ (updateUserSaldo s uid f).users, 0 ≤ v.saldo := by
  intro v' hv'
  obtain ⟨v, hv, rfl⟩ := List.mem_map.mp hv'
  cases hid : (v.id == uid) with
  | true =>
    have hid' : v.id = uid := by simpa using hid
    have hv_eq : v = u :=
      List.inj_on_of_nodup_map hnodup hv (findUser_mem hfind)
        (by rw [hid', findUser_id hfind])
    simp only [hid, if_true]
    rw [hv_eq]
    exact hres
  | false =>
    simp only [hid, Bool.false_eq_true, if_false]
    exact hpos v hv

theorem nonneg_distributeBonusLevel (pid : Nat) (amt : Int) (s : State) (row : ReferralLevel)
    (hpos : ∀ v ∈ s.users, 0 ≤ v.saldo) :
    ∀ v ∈ (distributeBonusLevel pid amt s row).users, 0 ≤ v.saldo := by
  unfold distributeBonusLevel
  cases hp : bonusPercent row.level with
  | none => exact hpos
  | some pct =>
    cases hfind : findUser s row.referrer_id with
    | none => simp only [hfind]; exact hpos
    | some u =>
      simp only [hfind]
      by_cases hb : (amt * pct).fdiv 100 > 0
      · simp only [if_pos hb]
        intro v' hv'
        obtain ⟨v, hv, rfl⟩ := List.mem_map.mp hv'
        cases hid : (v.id == row.referrer_id) with
        | true =>
          simp only [hid, if_true]
          have := hpos v hv
          omega
        | false =>
          simp only [hid, Bool.false_eq_true, if_false]
          exact hpos v hv
      · simp only [if_neg hb]
        exact hpos

theorem nonneg_distributeReferralBonuses (s : State) (pid : Nat) (amt : Int)
    (hpos : ∀ v ∈ s.users, 0 ≤ v.saldo) :
    ∀ v ∈ (distributeReferralBonuses s pid amt).users, 0 ≤ v.saldo := by
  unfold distributeReferralBonuses
  exact foldl_preserve (fun st => ∀ v ∈ st.users, 0 ≤ v.saldo) _
    (fun st row h => nonneg_distributeBonusLevel pid amt st row h) (referrerRows s pid) s hpos

/-- Claim C7: no listed operation debits an account below zero.  Every
debiting request whose amount exceeds the current balance (admin deduct,
withdrawal request, product purchase, bulk deduct) is rejected with a
non-empty error message and leaves the state (balances, Purchases,
Withdrawals, Transactions) completely unchanged; and each of these operations
preserves non-negativity of every balance. -/
theorem C7_no_negative_balance :
    (∀ (s : State) (uid : Nat) (amt : Int) (u : User),
       findUser s uid = some u → u.saldo < amt →
       (deductBalance s uid amt).1.success = false ∧ (deductBalance s uid amt).1.status = 400 ∧
       (deductBalance s uid amt).1.message ≠ "" ∧ (deductBalance s uid amt).2 = s) ∧
    (∀ (s : State) (uid : Nat) (amt : Int) (nwid : Nat) (u : User),
       findUser s uid = some u → u.saldo < amt →
       (apiWithdraw s uid amt nwid).1.success = false ∧
       (apiWithdraw s uid amt nwid).1.message ≠ "" ∧ (apiWithdraw s uid amt nwid).2 = s) ∧
    (∀ (s : State) (uid pid : Nat) (pname : String) (amt qty dr cd now : Int) (npid : Nat)
       (u : User),
       findUser s uid = some u → u.saldo < amt →
       (apiPurchase s uid pid pname amt qty dr cd now npid).1.success = false ∧
       (apiPurchase s uid pid pname amt qty dr cd now npid).1.message ≠ "" ∧
       (apiPurchase s uid pid pname amt qty dr cd now npid).2 = s) ∧
    (∀ (s : State) (op : BulkOp) (u : User),
       findUser s op.user_id = some u → op.action = "deduct" → u.saldo < op.amount →
       bulkStep s op = (s, false)) ∧
    (∀ (s : State) (uid : Nat) (amt : Int),
       (s.users.map (fun x => x.id)).Nodup → (∀ v ∈ s.users, 0 ≤ v.saldo) →
       ∀ v ∈ (deductBalance s uid amt).2.users, 0 ≤ v.saldo) ∧
    (∀ (s : State) (uid : Nat) (amt : Int) (nwid : Nat),
       (s.users.map (fun x => x.id)).Nodup → (∀ v ∈ s.users, 0 ≤ v.saldo) →
       ∀ v ∈ (apiWithdraw s uid amt nwid).2.users, 0 ≤ v.saldo) ∧
    (∀ (s : State) (uid pid : Nat) (pname : String) (amt qty dr cd now : Int) (npid : Nat),
       (s.users.map (fun x => x.id)).Nodup → (∀ v ∈ s.users, 0 ≤ v.saldo) →
       ∀ v ∈ (apiPurchase s uid pid pname amt qty dr cd now npid).2.users, 0 ≤ v.saldo) ∧
    (∀ (s : State) (op : BulkOp),
       (s.users.map (fun x => x.id)).Nodup → (∀ v ∈ s.users, 0 ≤ v.saldo) →
       ∀ v ∈ (bulkStep s op).1.users, 0 ≤ v.saldo) := by
  refine ⟨?_, ?_, ?_, ?_, ?_, ?_, ?_, ?_⟩
  · intro s uid amt u hfind hlt
    unfold deductBalance
    by_cases h1 : amt ≤ 0
    · simp only [if_pos h1]
      exact ⟨by trivial, by trivial, by decide, by trivial⟩
    · simp only [if_neg h1, hfind, if_pos hlt]
      exact ⟨by trivial, by trivial, by decide, by trivial⟩
  · intro s uid amt nwid u hfind hlt
    unfold apiWithdraw
    by_cases h1 : amt ≤ 0
    · simp only [if_pos h1]
      exact ⟨by trivial, by decide, by trivial⟩
    · simp only [if_neg h1, hfind, if_pos hlt]
      exact ⟨by trivial, by decide, by trivial⟩
  · intro s uid pid pname amt qty dr cd now npid u hfind hlt
    unfold apiPurchase
    by_cases hval : pid = 0 ∨ pname = "" ∨ amt = 0
    · simp only [if_pos hval]
      exact ⟨by trivial, by decide, by trivial⟩
    · simp only [if_neg hval, hfind, if_pos hlt]
      exact ⟨by trivial, by decide, by trivial⟩
  · intro s op u hfind ha hlt
    unfold bulkStep
    by_cases h1 : op.amount ≤ 0
    · simp only [if_pos h1]
    · have hadd : (op.action == "add") = false := by simp [ha]
      have hded : (op.action == "deduct") = true := by simp [ha]
      simp only [if_neg h1, hfind, hadd, Bool.false_eq_true, if_false, hded, if_true,
        if_pos hlt]
  · intro s uid amt hnodup hpos
    unfold deductBalance
    by_cases h1 : amt ≤ 0
    · simp only [if_pos h1]; exact hpos
    · simp only [if_neg h1]
      cases hfind : findUser s uid with
      | none => exact hpos
      | some u =>
        by_cases h2 : u.saldo < amt
        · simp only [if_pos h2]; exact hpos
        · simp only [if_neg h2]
          exact nonneg_updateUserSaldo (fun b => b - amt) hnodup hpos hfind (by show 0 ≤ u.saldo - amt; omega)
  · intro s uid amt nwid hnodup hpos
    unfold apiWithdraw
    by_cases h1 : amt ≤ 0
    · simp only [if_pos h1]; exact hpos
    · simp only [if_neg h1]
      cases hfind : findUser s uid with
      | none => exact hpos
      | some u =>
        by_cases h2 : u.saldo < amt
        · simp only [if_pos h2]; exact hpos
        · simp only [if_neg h2]
          exact nonneg_updateUserSaldo (fun b => b - amt) hnodup hpos hfind (by show 0 ≤ u.saldo - amt; omega)
  · intro s uid pid pname amt qty dr cd now npid hnodup hpos
    unfold apiPurchase
    by_cases hval : pid = 0 ∨ pname = "" ∨ amt = 0
    · simp only [if_pos hval]; exact hpos
    · simp only [if_neg hval]
      cases hfind : findUser s uid with
      | none => exact hpos
      | some u =>
        by_cases h2 : u.saldo < amt
        · simp only [if_pos h2]; exact hpos
        · simp only [if_neg h2]
          exact nonneg_distributeReferralBonuses _ uid amt
            (nonneg_updateUserSaldo (fun b => b - amt) hnodup hpos hfind (by show 0 ≤ u.saldo - amt; omega))
  · intro s op hnodup hpos
    unfold bulkStep
    by_cases h1 : op.amount ≤ 0
    · simp only [if_pos h1]; exact hpos
    · simp only [if_neg h1]
      cases hfind : findUser s op.user_id with
      | none => exact hpos
      | some u =>
        by_cases hadd : (op.action == "add") = true
        · simp only [hadd, if_true]
          intro v' hv'
          obtain ⟨v, hv, rfl⟩ := List.mem_map.mp hv'
          cases hid : (v.id == op.user_id) with
          | true =>
            simp only [hid, if_true]
            have := hpos v hv
            omega
          | false =>
            simp only [hid, Bool.false_eq_true, if_false]
            exact hpos v hv
        · simp only [hadd, Bool.false_eq_true, if_false]
          by_cases hded : (op.action == "deduct") = true
          · simp only [hded, if_true]
            by_cases h2 : u.saldo < op.amount
            · simp only [if_pos h2]; exact hpos
            · simp only [if_neg h2]
              exact nonneg_updateUserSaldo (fun b => b - op.amount) hnodup hpos hfind (by show 0 ≤ u.saldo - op.amount; omega)
          · simp only [hded, Bool.false_eq_true, if_false]
            by_cases hset : (op.action == "set") = true
            · simp only [hset, if_true]
              intro v' hv'
              obtain ⟨v, hv, rfl⟩ := List.mem_map.mp hv'
              cases hid : (v.id == op.user_id) with
              | true =>
                simp only [hid, if_true]
                omega
              | false =>
                simp only [hid, Bool.false_eq_true, if_false]
                exact hpos v hv
            · simp only [hset, Bool.false_eq_true, if_false]
              exact hpos

def wC7s : State :=
  { users := [{ id := 1, saldo := 150, inviter_id := none }], purchases := [],
    transactions := [], referralLevels := [], referralBonuses := [], deposits := [],
    withdrawals := [], logs := [] }

theorem C7_no_negative_balance_w :
    ((deductBalance wC7s 1 200).1.success = false ∧ (deductBalance wC7s 1 200).1.status = 400 ∧
     (deductBalance wC7s 1 200).1.message ≠ "" ∧ (deductBalance wC7s 1 200).2 = wC7s) ∧
    (apiWithdraw wC7s 1 200 5).2 = wC7s ∧
    (apiPurchase wC7s 1 9 "P" 200 1 13 30 0 5).2 = wC7s ∧
    bulkStep wC7s { user_id := 1, action := "deduct", amount := 200 } = (wC7s, false) ∧
    (∀ v ∈ (deductBalance wC7s 1 100).2.users, 0 ≤ v.saldo) := by
  have h := C7_no_negative_balance
  refine ⟨h.1 wC7s 1 200 { id := 1, saldo := 150, inviter_id := none } (by decide) (by decide),
    (h.2.1 wC7s 1 200 5 { id := 1, saldo := 150, inviter_id := none } (by decide) (by decide)).2.2,
    (h.2.2.1 wC7s 1 9 "P" 200 1 13 30 0 5 { id := 1, saldo := 150, inviter_id := none }
      (by decide) (by decide)).2.2,
    h.2.2.2.1 wC7s { user_id := 1, action := "deduct", amount := 200 }
      { id := 1, saldo := 150, inviter_id := none } (by decide) (by decide) (by decide),
    h.2.2.2.2.1 wC7s 1 100 (by decide) (by decide)⟩

theorem findWithdrawal_update (s : State) (wid k : Nat) (f : Withdrawal → Withdrawal)
    (hf : ∀ x, (f x).id = x.id) :
    findWithdrawal (updateWithdrawalById s wid f) k
      = (findWithdrawal s k).map (fun x => if x.id == wid then f x else x) := by
  unfold findWithdrawal updateWithdrawalById
  exact find?_map_by_id (fun x : Withdrawal => x.id) _
    (fun x => by by_cases h : (x.id == wid) = true <;> simp [h, hf]) s.withdrawals k

theorem findWithdrawal_id {s : State} {wid : Nat} {w : Withdrawal}
    (h : findWithdrawal s wid = some w) : w.id = wid := by
  have := List.find?_some h
  simpa using this

theorem findDeposit_update (s : State) (did k : Nat) (f : Deposit → Deposit)
    (hf : ∀ x, (f x).id = x.id) :
    findDeposit (updateDepositById s did f) k
      = (findDeposit s k).map (fun x => if x.id == did then f x else x) := by
  unfold findDeposit updateDepositById
  exact find?_map_by_id (fun x : Deposit => x.id) _
    (fun x => by by_cases h : (x.id == did) = true <;> simp [h, hf]) s.deposits k

theorem findDeposit_id {s : State} {did : Nat} {d : Deposit}
    (h : findDeposit s did = some d) : d.id = did := by
  have := List.find?_some h
  simpa using this

/-- Claim C8: the withdrawal-rejection handler checks only that the
withdrawal exists, never its status, so every call on an existing withdrawal
credits the amount back, marks the withdrawal failed and appends a
withdrawal_refund Transaction; rejecting the same withdrawal twice therefore
credits the refund twice; deposit approval, by contrast, rejects an already
completed deposit with a 400 response and no mutation. -/
theorem C8_withdrawal_reject_no_status_check :
    (∀ (s : State) (wid : Nat) (w : Withdrawal) (u : User),
       findWithdrawal s wid = some w → findUser s w.user_id = some u →
       findUser (withdrawalReject s wid).2 w.user_id
         = some { u with saldo := u.saldo + w.amount } ∧
       findWithdrawal (withdrawalReject s wid).2 wid = some { w with status := "failed" } ∧
       (withdrawalReject s wid).2.transactions
         = s.transactions ++
           [{ user_id := w.user_id, type := "withdrawal_refund", amount := w.amount,
              description := "Devolução de saque rejeitado",
              balance_after := u.saldo + w.amount }] ∧
       findUser (withdrawalReject (withdrawalReject s wid).2 wid).2 w.user_id
         = some { u with saldo := u.saldo + w.amount + w.amount } ∧
       (withdrawalReject (withdrawalReject s wid).2 wid).2.transactions
         = s.transactions ++
           [{ user_id := w.user_id, type := "withdrawal_refund", amount := w.amount,
              description := "Devolução de saque rejeitado",
              balance_after := u.saldo + w.amount },
            { user_id := w.user_id, type := "withdrawal_refund", amount := w.amount,
              description := "Devolução de saque rejeitado",
              balance_after := u.saldo + w.amount + w.amount }]) ∧
    (∀ (s : State) (did : Nat) (d : Deposit),
       findDeposit s did = some d → d.status = "completed" →
       depositApprove s did
         = ({ status := 400, success := false, message := "Depósito já foi processado" }, s)) := by
  constructor
  · have key : ∀ (s : State) (wid : Nat) (w : Withdrawal) (u : User),
        findWithdrawal s wid = some w → findUser s w.user_id = some u →
        findUser (withdrawalReject s wid).2 w.user_id
          = some { u with saldo := u.saldo + w.amount } ∧
        findWithdrawal (withdrawalReject s wid).2 wid = some { w with status := "failed" } ∧
        (withdrawalReject s wid).2.transactions
          = s.transactions ++
            [{ user_id := w.user_id, type := "withdrawal_refund", amount := w.amount,
               description := "Devolução de saque rejeitado",
               balance_after := u.saldo + w.amount }] := by
      intro s wid w u hw hfind
      unfold withdrawalReject
      simp only [hw, hfind]
      refine ⟨findUser_updateUserSaldo_self (fun b => b + w.amount) hfind, ?_, by trivial⟩
      show findWithdrawal (updateWithdrawalById
        (updateUserSaldo s w.user_id (fun b => b + w.amount)) wid
        (fun ww => { ww with status := "failed" })) wid = some { w with status := "failed" }
      rw [findWithdrawal_update _ wid wid (fun ww => { ww with status := "failed" })
        (fun x => rfl)]
      have hw1 : findWithdrawal (updateUserSaldo s w.user_id (fun b => b + w.amount)) wid
          = some w := hw
      rw [hw1]
      simp [findWithdrawal_id hw]
    intro s wid w u hw hfind
    have h1 := key s wid w u hw hfind
    have h2 := key (withdrawalReject s wid).2 wid { w with status := "failed" }
      { u with saldo := u.saldo + w.amount } h1.2.1 h1.1
    refine ⟨h1.1, h1.2.1, h1.2.2, h2.1, ?_⟩
    rw [h2.2.2, h1.2.2, List.append_assoc]
    rfl
  · intro s did d hd hst
    unfold depositApprove
    have hbeq : (d.status == "completed") = true := by simp [hst]
    simp only [hd, hbeq, if_true]

def wC8s : State :=
  { users := [{ id := 1, saldo := 30, inviter_id := none }], purchases := [],
    transactions := [],
    referralLevels := [], referralBonuses := [],
    deposits := [{ id := 2, user_id := 1, amount := 500, status := "completed" }],
    withdrawals := [{ id := 1, user_id := 1, amount := 40, status := "pending" }],
    logs := [] }

theorem C8_withdrawal_reject_no_status_check_w :
    findUser (withdrawalReject (withdrawalReject wC8s 1).2 1).2 1
      = some { id := 1, saldo := 110, inviter_id := none } ∧
    depositApprove wC8s 2
      = ({ status := 400, success := false, message := "Depósito já foi processado" }, wC8s) := by
  have h := C8_withdrawal_reject_no_status_check
  have h1 := (h.1 wC8s 1 { id := 1, user_id := 1, amount := 40, status := "pending" }
    { id := 1, saldo := 30, inviter_id := none } (by decide) (by decide)).2.2.2.1
  have h2 := h.2 wC8s 2 { id := 2, user_id := 1, amount := 500, status := "completed" }
    (by decide) (by decide)
  exact ⟨h1, h2⟩

/-- Claim C9: on a pending deposit the approval handler commits the balance
credit, the status change to completed and the deposit Transaction, yet its
success response reads the undefined variable result (src/eu.js line 1769),
so the thrown ReferenceError reaches the catch and the caller is answered
with a 500 internal-error response even though the state change is
committed. -/
theorem C9_deposit_approve_result_undefined :
    ∀ (s : State) (did : Nat) (d : Deposit) (u : User),
      findDeposit s did = some d → d.status ≠ "completed" →
      findUser s d.user_id = some u →
      (depositApprove s did).1.success = false ∧
      (depositApprove s did).1.status = 500 ∧
      (depositApprove s did).1.message = "Erro interno do servidor: result is not defined" ∧
      findUser (depositApprove s did).2 d.user_id
        = some { u with saldo := u.saldo + d.amount } ∧
      findDeposit (depositApprove s did).2 did = some { d with status := "completed" } ∧
      (depositApprove s did).2.transactions
        = s.transactions ++
          [{ user_id := d.user_id, type := "deposit", amount := d.amount,
             description := "Depósito aprovado", balance_after := u.saldo + d.amount }] := by
  intro s did d u hd hst hfind
  have hbeq : (d.status == "completed") = false := by simpa using hst
  unfold depositApprove
  simp only [hd, hbeq, Bool.false_eq_true, if_false, hfind, resultInScope]
  refine ⟨by trivial, by trivial, by trivial,
    findUser_updateUserSaldo_self (fun b => b + d.amount) hfind, ?_, by trivial⟩
  show findDeposit (updateDepositById
    (updateUserSaldo s d.user_id (fun b => b + d.amount)) did
    (fun dd => { dd with status := "completed" })) did = some { d with status := "completed" }
  rw [findDeposit_update _ did did (fun dd => { dd with status := "completed" }) (fun x => rfl)]
  have hd1 : findDeposit (updateUserSaldo s d.user_id (fun b => b + d.amount)) did
      = some d := hd
  rw [hd1]
  simp [findDeposit_id hd]

def wC9s : State :=
  { users := [{ id := 3, saldo := 25, inviter_id := none }], purchases := [],
    transactions := [], referralLevels := [], referralBonuses := [],
    deposits := [{ id := 7, user_id := 3, amount := 500, status := "pending" }],
    withdrawals := [], logs := [] }

theorem C9_deposit_approve_result_undefined_w :
    (depositApprove wC9s 7).1.success = false ∧
    (depositApprove wC9s 7).1.status = 500 ∧
    (depositApprove wC9s 7).1.message = "Erro interno do servidor: result is not defined" ∧
    findUser (depositApprove wC9s 7).2 3 = some { id := 3, saldo := 525, inviter_id := none } ∧
    findDeposit (depositApprove wC9s 7).2 7
      = some { id := 7, user_id := 3, amount := 500, status := "completed" } ∧
    (depositApprove wC9s 7).2.transactions
      = [{ user_id := 3, type := "deposit", amount := 500,
           description := "Depósito aprovado", balance_after := 525 }] :=
  C9_deposit_approve_result_undefined wC9s 7
    { id := 7, user_id := 3, amount := 500, status := "pending" }
    { id := 3, saldo := 25, inviter_id := none } (by decide) (by decide) (by decide)

theorem distributeBonusLevel_purchases (pid : Nat) (amt : Int) (s : State)
    (row : ReferralLevel) : (distributeBonusLevel pid amt s row).purchases = s.purchases := by
  unfold distributeBonusLevel
  cases hp : bonusPercent row.level with
  | none => rfl
  | some pct =>
    cases hfind : findUser s row.referrer_id with
    | none => simp only [hfind]
    | some u =>
      simp only [hfind]
      by_cases hb : (amt * pct).fdiv 100 > 0
      · simp only [if_pos hb]
        rfl
      · simp only [if_neg hb]

theorem distributeReferralBonuses_purchases (s : State) (pid : Nat) (amt : Int) :
    (distributeReferralBonuses s pid amt).purchases = s.purchases := by
  unfold distributeReferralBonuses
  generalize referrerRows s pid = rows
  induction rows generalizing s with
  | nil => rfl
  | cons r rows ih =>
    rw [List.foldl_cons]
    rw [ih (distributeBonusLevel pid amt s r)]
    exact distributeBonusLevel_purchases pid amt s r

/-- Claim C10: purchase validation requires only product_id, product_name and
amount; with those present and sufficient balance the purchase succeeds for
any daily_return and cycle_days (missing values are modelled as 0, the falsy
JavaScript value), and the created Purchase row carries daily_return
defaulted through the || operator (0 becomes 13) and cycle_days defaulted
likewise (0 becomes 30); the Payout Engine applies the same substitution and
credits 13 per day for a purchase whose stored daily_return is 0. -/
theorem C10_purchase_default_daily_return :
    (∀ (s : State) (uid pid : Nat) (pname : String) (amt qty dr cd now : Int) (npid : Nat)
       (u : User),
       pid ≠ 0 → pname ≠ "" → amt ≠ 0 →
       findUser s uid = some u → ¬ u.saldo < amt →
       (apiPurchase s uid pid pname amt qty dr cd now npid).1.success = true ∧
       (apiPurchase s uid pid pname amt qty dr cd now npid).2.purchases
         = s.purchases ++
           [{ id := npid, user_id := uid, product_id := pid, product_name := pname,
              amount := amt, quantity := jsOr qty 1, daily_return := jsOr dr 13,
              cycle_days := jsOr cd 30, purchase_date := now,
              next_payout := now + 24 * msPerHour,
              expiry_date := now + jsOr cd 30 * msPerDay, status := "active",
              total_earned := 0, payout_count := 0, last_payout := none,
              completed_at := none }]) ∧
    jsOr 0 13 = 13 ∧ jsOr 0 30 = 30 ∧
    (∀ (now : Int) (s : State) (p : Purchase) (u : User),
       p.daily_return = 0 → 0 < jsOr p.cycle_days 30 - daysPassed now p →
       findUser s p.user_id = some u →
       findUser (processDuePurchase now s p) p.user_id
         = some { u with saldo := u.saldo + 13 }) := by
  refine ⟨?_, by decide, by decide, ?_⟩
  · intro s uid pid pname amt qty dr cd now npid u hpid hpname hamt hfind hlt
    have hval : ¬(pid = 0 ∨ pname = "" ∨ amt = 0) := by tauto
    unfold apiPurchase
    simp only [if_neg hval, hfind, if_neg hlt]
    refine ⟨by trivial, ?_⟩
    exact (distributeReferralBonuses_purchases _ uid amt).trans rfl
  · intro now s p u hdr hrem hfind
    have hrem' : ¬(jsOr p.cycle_days 30 - daysPassed now p ≤ 0) := by omega
    unfold processDuePurchase
    simp only [if_neg hrem', hfind, hdr]
    exact findUser_updateUserSaldo_self (fun b => b + jsOr 0 13) hfind

def wC10s : State :=
  { users := [{ id := 1, saldo := 1000, inviter_id := none }], purchases := [],
    transactions := [], referralLevels := [], referralBonuses := [], deposits := [],
    withdrawals := [], logs := [] }

def wC10p : Purchase :=
  { id := 6, user_id := 1, product_id := 2, product_name := "R", amount := 500,
    quantity := 1, daily_return := 0, cycle_days := 0,
    purchase_date := cxNow - msPerDay - 1, next_payout := cxNow - 1,
    expiry_date := cxNow + 29 * msPerDay, status := "active", total_earned := 0,
    payout_count := 0, last_payout := none, completed_at := none }

theorem C10_purchase_default_daily_return_w :
    ((apiPurchase wC10s 1 2 "R" 500 0 0 0 cxNow 6).1.success = true ∧
     (apiPurchase wC10s 1 2 "R" 500 0 0 0 cxNow 6).2.purchases
       = [{ id := 6, user_id := 1, product_id := 2, product_name := "R", amount := 500,
            quantity := 1, daily_return := 13, cycle_days := 30, purchase_date := cxNow,
            next_payout := cxNow + 24 * msPerHour, expiry_date := cxNow + 30 * msPerDay,
            status := "active", total_earned := 0, payout_count := 0, last_payout := none,
            completed_at := none }]) ∧
    findUser (processDuePurchase cxNow { wC10s with purchases := [wC10p] } wC10p) 1
      = some { id := 1, saldo := 1013, inviter_id := none } := by
  have h := C10_purchase_default_daily_return
  have h1 := h.1 wC10s 1 2 "R" 500 0 0 0 cxNow 6 { id := 1, saldo := 1000, inviter_id := none }
    (by decide) (by decide) (by decide) (by decide) (by decide)
  have h2 := h.2.2.2 cxNow { wC10s with purchases := [wC10p] } wC10p
    { id := 1, saldo := 1000, inviter_id := none } (by decide) (by decide) (by decide)
  exact ⟨⟨h1.1, by rw [h1.2]; decide⟩, h2⟩

theorem findUser_appendTxn (s : State) (t : Txn) (k : Nat) :
    findUser (appendTxn s t) k = findUser s k := rfl

theorem findUser_appendLog (s : State) (l : SystemLog) (k : Nat) :
    findUser (appendLog s l) k = findUser s k := rfl

theorem findUser_updatePurchaseById (s : State) (pid : Nat) (f : Purchase → Purchase)
    (k : Nat) : findUser (updatePurchaseById s pid f) k = findUser s k := rfl

/-- The pure per-purchase transformation that the loop body of
POST /api/process-daily-payouts applies to the purchase row with the matching
id: completion when the elapsed days exhaust the cycle, the credit update
when the owner row exists (hu), identity otherwise (the rolled-back store
transaction of a missing owner). -/
def purchTransform (now : Int) (hu : Bool) (p q : Purchase) : Purchase :=
  if q.id == p.id then
    if jsOr p.cycle_days 30 - daysPassed now p ≤ 0 then
      { q with status := "completed", completed_at := some now }
    else if hu then
      { q with next_payout := p.next_payout + 24 * msPerHour,
               total_earned := q.total_earned + jsOr p.daily_return 13,
               payout_count := q.payout_count + 1,
               last_payout := some now }
    else q
  else q

theorem purchTransform_id (now : Int) (hu : Bool) (p q : Purchase) :
    (purchTransform now hu p q).id = q.id := by
  unfold purchTransform
  by_cases h1 : (q.id == p.id) = true
  · simp only [h1, if_true]
    by_cases h2 : jsOr p.cycle_days 30 - daysPassed now p ≤ 0
    · simp only [if_pos h2]
    · simp only [if_neg h2]
      cases hu <;> simp
  · simp only [h1, Bool.false_eq_true, if_false]

theorem processDuePurchase_purchases (now : Int) (s : State) (p : Purchase) :
    (processDuePurchase now s p).purchases
      = s.purchases.map (fun q => purchTransform now ((findUser s p.user_id).isSome) p q) := by
  unfold processDuePurchase purchTransform
  by_cases hrem : jsOr p.cycle_days 30 - daysPassed now p ≤ 0
  · simp only [if_pos hrem]
    rfl
  · simp only [if_neg hrem]
    cases hfind : findUser s p.user_id with
    | none =>
      simp only [hfind, Option.isSome_none, Bool.false_eq_true, if_false, ite_self]
      simp
    | some u =>
      simp only [hfind, Option.isSome_some, if_true]
      rfl

theorem findUser_isSome_processDuePurchase (now : Int) (s : State) (p : Purchase) (uid : Nat) :
    (findUser (processDuePurchase now s p) uid).isSome = (findUser s uid).isSome := by
  unfold processDuePurchase
  by_cases hrem : jsOr p.cycle_days 30 - daysPassed now p ≤ 0
  · simp only [if_pos hrem]
    rfl
  · simp only [if_neg hrem]
    cases hfind : findUser s p.user_id with
    | none => rfl
    | some u =>
      simp only [findUser_appendLog, findUser_appendTxn, findUser_updatePurchaseById,
        findUser_updateUserSaldo]
      cases findUser s uid <;> rfl

theorem foldl_processDuePurchase_purchases (now : Int) :
    ∀ (L : List Purchase) (s : State),
      (L.foldl (processDuePurchase now) s).purchases
        = L.foldl (fun acc p => acc.map
            (fun q => purchTransform now ((findUser s p.user_id).isSome) p q)) s.purchases := by
  intro L
  induction L with
  | nil => intro s; rfl
  | cons p L ih =>
    intro s
    rw [List.foldl_cons, List.foldl_cons, ih (processDuePurchase now s p)]
    simp only [findUser_isSome_processDuePurchase]
    rw [processDuePurchase_purchases]

theorem foldl_map_general {α β : Type} (g : β → α → α) :
    ∀ (L : List β) (init : List α),
      L.foldl (fun acc b => acc.map (g b)) init
        = init.map (fun a => L.foldl (fun a' b => g b a') a) := by
  intro L
  induction L with
  | nil => intro init; simp
  | cons b L ih =>
    intro init
    rw [List.foldl_cons, ih (init.map (g b)), List.map_map]
    simp [Function.comp]

theorem foldl_purchTransform_skip (now : Int) (hu : Purchase → Bool) :
    ∀ (L : List Purchase) (q : Purchase), (∀ p ∈ L, q.id ≠ p.id) →
      L.foldl (fun q' p => purchTransform now (hu p) p q') q = q := by
  intro L
  induction L with
  | nil => intro q _; rfl
  | cons p L ih =>
    intro q hall
    rw [List.foldl_cons]
    have hne : q.id ≠ p.id := hall p (List.mem_cons_self p L)
    have hb : (q.id == p.id) = false := by simpa using hne
    have hstep : purchTransform now (hu p) p q = q := by
      unfold purchTransform
      simp only [hb, Bool.false_eq_true, if_false]
    rw [hstep]
    exact ih q (fun p' hp' => hall p' (List.mem_cons_of_mem p hp'))

theorem notDue_after_transform (now : Int) (q0 : Purchase)
    (hlate : now < q0.next_payout + 24 * msPerHour) :
    isDue now (purchTransform now true q0 q0) = false := by
  unfold purchTransform
  simp only [beq_self_eq_true, if_true]
  by_cases hrem : jsOr q0.cycle_days 30 - daysPassed now q0 ≤ 0
  · simp only [if_pos hrem]
    unfold isDue
    rfl
  · simp only [if_neg hrem, if_true]
    unfold isDue
    have h1 : ¬(q0.next_payout + 24 * msPerHour ≤ now) := by omega
    simp [h1]

def cxC3p : Purchase :=
  { id := 1, user_id := 1, product_id := 1, product_name := "P", amount := 500,
    quantity := 1, daily_return := 13, cycle_days := 30,
    purchase_date := cxNow - 25 * msPerHour, next_payout := cxNow - 25 * msPerHour,
    expiry_date := cxNow + 10 * msPerDay, status := "active", total_earned := 0,
    payout_count := 0, last_payout := none, completed_at := none }

def cxC3s : State :=
  { users := [{ id := 1, saldo := 0, inviter_id := none }], purchases := [cxC3p],
    transactions := [], referralLevels := [], referralBonuses := [], deposits := [],
    withdrawals := [], logs := [] }

/-- Claim C3, counterexample: the claim quantifies over every initial set of
active purchases, but a purchase 25 hours overdue defeats it.  Its first run
advances next_payout by the fixed 24 hours to one hour before now, so the
purchase is still due: the second run (same wall-clock now, no interleaving)
selects it again and credits it a second time, leaving the owner with two
credits (balance 26 after two runs with daily_return 13). -/
theorem C3_second_run_credits_again_cx :
    (duePurchases cxNow (processDailyPayouts cxNow cxC3s)).length = 1 ∧
    saldoOf (processDailyPayouts cxNow (processDailyPayouts cxNow cxC3s)) 1 = some 26 ∧
    (processDailyPayouts cxNow (processDailyPayouts cxNow cxC3s)).transactions.map
      (fun t => t.type) = ["daily_payout_auto", "daily_payout_auto"] := by
  decide

/-- Claim C3, amended: invoking the Payout Engine twice in immediate
succession (same now) credits each eligible purchase at most once PROVIDED
every due purchase is less than 24 hours overdue (now is before its
next_payout plus 24 hours) and has an existing owner, and purchase ids are
unique: then the first run advances or completes every due purchase and the
second run selects no purchases as due.  A purchase 24 hours or more overdue
is re-selected and credited again (see the counterexample). -/
theorem C3_second_run_empty :
    ∀ (now : Int) (s : State),
      (s.purchases.map (fun q => q.id)).Nodup →
      (∀ p ∈ duePurchases now s, now < p.next_payout + 24 * msPerHour) →
      (∀ p ∈ duePurchases now s, (findUser s p.user_id).isSome = true) →
      duePurchases now (processDailyPayouts now s) = [] := by
  intro now s hnodup hlate howner
  by_cases hempty : (duePurchases now s).isEmpty
  · unfold processDailyPayouts
    simp only [if_pos hempty]
    exact List.isEmpty_iff.mp hempty
  · have hpur : (processDailyPayouts now s).purchases
        = s.purchases.map (fun q0 => (duePurchases now s).foldl
            (fun q' p => purchTransform now ((findUser s p.user_id).isSome) p q') q0) := by
      unfold processDailyPayouts
      simp only [if_neg hempty]
      exact (foldl_processDuePurchase_purchases now (duePurchases now s) s).trans
        (foldl_map_general (fun p q => purchTransform now ((findUser s p.user_id).isSome) p q)
          (duePurchases now s) s.purchases)
    show duePurchases now (processDailyPayouts now s) = []
    unfold duePurchases
    rw [hpur]
    refine List.filter_eq_nil_iff.mpr ?_
    intro q hq
    obtain ⟨q0, hq0, rfl⟩ := List.mem_map.mp hq
    have hinj := List.inj_on_of_nodup_map hnodup
    by_cases hdue : isDue now q0 = true
    · -- q0 is due: it is transformed exactly once, by its own step
      have hq0L : q0 ∈ duePurchases now s := List.mem_filter.mpr ⟨hq0, hdue⟩
      obtain ⟨l1, l2, hL⟩ := List.append_of_mem hq0L
      have hLsub : List.Sublist (duePurchases now s) s.purchases :=
        List.filter_sublist s.purchases
      have hLnodup : ((duePurchases now s).map (fun q => q.id)).Nodup :=
        List.Nodup.sublist (hLsub.map (fun q => q.id)) hnodup
      rw [hL] at hLnodup
      rw [List.map_append, List.map_cons] at hLnodup
      have hmid := (List.nodup_middle).mp hLnodup
      have hnotmem : q0.id ∉ l1.map (fun q => q.id) ++ l2.map (fun q => q.id) :=
        (List.nodup_cons.mp hmid).1
      have h1 : ∀ p ∈ l1, q0.id ≠ p.id := by
        intro p hp heq
        exact hnotmem (List.mem_append.mpr (Or.inl (heq ▸ List.mem_map_of_mem _ hp)))
      have h2 : ∀ p ∈ l2, q0.id ≠ p.id := by
        intro p hp heq
        exact hnotmem (List.mem_append.mpr (Or.inr (heq ▸ List.mem_map_of_mem _ hp)))
      have hfold : (duePurchases now s).foldl
          (fun q' p => purchTransform now ((findUser s p.user_id).isSome) p q') q0
          = purchTransform now ((findUser s q0.user_id).isSome) q0 q0 := by
        rw [hL, List.foldl_append,
          foldl_purchTransform_skip now (fun p => (findUser s p.user_id).isSome) l1 q0 h1,
          List.foldl_cons]
        refine foldl_purchTransform_skip now (fun p => (findUser s p.user_id).isSome) l2 _ ?_
        intro p hp
        rw [purchTransform_id]
        exact h2 p hp
      rw [hfold, howner q0 hq0L]
      rw [notDue_after_transform now q0 (hlate q0 hq0L)]
      simp
    · -- q0 is not due: no step matches its id, it is unchanged and still not due
      have hskip : ∀ p ∈ duePurchases now s, q0.id ≠ p.id := by
        intro p hp heq
        have hpmem : p ∈ s.purchases := (List.mem_filter.mp hp).1
        have : q0 = p := hinj hq0 hpmem heq
        rw [this] at hdue
        exact hdue (List.mem_filter.mp hp).2
      rw [foldl_purchTransform_skip now (fun p => (findUser s p.user_id).isSome)
        (duePurchases now s) q0 hskip]
      simpa using hdue

def wC3p : Purchase :=
  { id := 1, user_id := 1, product_id := 1, product_name := "P", amount := 500,
    quantity := 1, daily_return := 13, cycle_days := 30,
    purchase_date := cxNow - 5 * msPerDay, next_payout := cxNow - msPerHour,
    expiry_date := cxNow + 25 * msPerDay, status := "active", total_earned := 0,
    payout_count := 0, last_payout := none, completed_at := none }

def wC3s : State :=
  { users := [{ id := 1, saldo := 0, inviter_id := none }], purchases := [wC3p],
    transactions := [], referralLevels := [], referralBonuses := [], deposits := [],
    withdrawals := [], logs := [] }

theorem C3_second_run_empty_w :
    duePurchases cxNow (processDailyPayouts cxNow wC3s) = [] :=
  C3_second_run_empty cxNow wC3s (by decide) (by decide) (by decide)
